import Mathlib

/-!
Verification of the siveca-api core against its specification.

The TypeScript sources are shallowly embedded in Lean:
JavaScript strings become Lean String (sequences of Unicode scalar values),
Node Buffers become List Nat (byte values), JavaScript numbers used for
metric values become Rat, millisecond timestamps become Int, and fallible
code returns Except.  Effect-wrapped pure functions are modeled as plain
functions; Effect failures as Except.error.
-/

namespace Siveca

/-- JavaScript truthiness of an optional string: undefined and the empty
string are falsy, every other string is truthy.  Models `Boolean(s)` and
`if (s)` on a `string | undefined` value. -/
def jsTruthyStr : Option String → Bool
  | none => false
  | some s => s ≠ ""

/-- JavaScript truthiness of an optional number: undefined and 0 are falsy.
Models `Boolean(n)` and `if (n)` on a `number | undefined` value. -/
def jsTruthyNum : Option Int → Bool
  | none => false
  | some n => n ≠ 0

/-- The Unicode replacement character U+FFFD produced by lenient UTF-8
decoding in Node. -/
def replacementChar : Char := Char.ofNat 0xFFFD

/-! ### Base64 codec

Embedding of `Buffer.from(id).toString('base64')` and
`Buffer.from(cursor, 'base64')` as used by src/business-logic/utils/cursor.ts.
Bytes are `Nat` values below 256. -/

/-- The 64-character base64 alphabet in index order. -/
def base64Alphabet : List Char :=
  "ABCDEFGHIJKLMNOPQRSTUVWXYZabcdefghijklmnopqrstuvwxyz0123456789+/".data

/-- Character of a 6-bit value. -/
def b64Char (n : Nat) : Char := base64Alphabet.getD n 'A'

/-- Whether a character belongs to the base64 alphabet (padding excluded). -/
def b64IsChar (c : Char) : Bool := base64Alphabet.contains c

/-- 6-bit value of an alphabet character (junk for other characters, which
the callers filter out first). -/
def b64Val (c : Char) : Nat := base64Alphabet.indexOf c

/-- 6-bit values of a byte list, three bytes to four values, with the
final one- or two-byte group shortened. -/
def b64EncodeVals : List Nat → List Nat
  | a :: b :: c :: rest =>
      a / 4 :: ((a % 4) * 16 + b / 16) :: ((b % 16) * 4 + c / 64) :: c % 64 ::
        b64EncodeVals rest
  | [a, b] => [a / 4, (a % 4) * 16 + b / 16, (b % 16) * 4]
  | [a] => [a / 4, (a % 4) * 16]
  | [] => []

/-- Padding characters appended for a trailing group of the given size. -/
def b64Pad : Nat → List Char
  | 1 => [Char.ofNat 61, Char.ofNat 61]
  | 2 => [Char.ofNat 61]
  | _ => []

/-- Base64 rendering of a byte list, as `Buffer.prototype.toString('base64')`
produces it (standard alphabet, `=` padding). -/
def base64Encode (bs : List Nat) : List Char :=
  (b64EncodeVals bs).map b64Char ++ b64Pad (bs.length % 3)

/-- Byte reconstruction from 6-bit values: groups of four values give three
bytes, a trailing group of three or two gives two or one, a single trailing
value is dropped.  This is the grouping Node applies after discarding
non-alphabet characters. -/
def b64DecodeVals : List Nat → List Nat
  | a :: b :: c :: d :: rest =>
      (a * 4 + b / 16) :: ((b % 16) * 16 + c / 4) :: ((c % 4) * 64 + d) ::
        b64DecodeVals rest
  | [a, b, c] => [a * 4 + b / 16, (b % 16) * 16 + c / 4]
  | [a, b] => [a * 4 + b / 16]
  | _ => []

/-- Lenient base64 decoding as `Buffer.from(s, 'base64')` performs it:
non-alphabet characters (including `=`) are ignored, then values are
regrouped into bytes. -/
def b64DecodeJs (cs : List Char) : List Nat :=
  b64DecodeVals ((cs.filter b64IsChar).map b64Val)

/-- The base64 shape test `/^[A-Z0-9+\x2f]*=\x7b0,2\x7d$/i` from cursor.ts:
a run of alphabet characters followed by at most two `=` signs. -/
def b64Format (s : String) : Bool :=
  let core := s.data.takeWhile b64IsChar
  let rest := s.data.drop core.length
  rest.all (· = Char.ofNat 61) && rest.length ≤ 2

theorem b64Val_b64Char : ∀ i : Fin 64, b64Val (b64Char i.val) = i.val := by decide

theorem b64IsChar_b64Char : ∀ i : Fin 64, b64IsChar (b64Char i.val) = true := by decide

theorem b64EncodeVals_lt (bs : List Nat) (h : ∀ b ∈ bs, b < 256) :
    ∀ v ∈ b64EncodeVals bs, v < 64 := by
  induction bs using b64EncodeVals.induct with
  | case1 a b c rest ih =>
      intro v hv
      simp only [b64EncodeVals, List.mem_cons] at hv
      have ha := h a (by simp)
      have hb := h b (by simp)
      have hc := h c (by simp)
      rcases hv with rfl | rfl | rfl | rfl | hv
      · omega
      · omega
      · omega
      · omega
      · exact ih (fun x hx => h x (by simp [hx])) v hv
  | case2 a b =>
      intro v hv
      have ha := h a (by simp)
      have hb := h b (by simp)
      simp only [b64EncodeVals, List.mem_cons] at hv
      rcases hv with rfl | rfl | rfl | hv
      · omega
      · omega
      · omega
      · simp at hv
  | case3 a =>
      intro v hv
      have ha := h a (by simp)
      simp only [b64EncodeVals, List.mem_cons] at hv
      rcases hv with rfl | rfl | hv
      · omega
      · omega
      · simp at hv
  | case4 => intro v hv; simp [b64EncodeVals] at hv

theorem map_b64Val_b64Char (vs : List Nat) (h : ∀ v ∈ vs, v < 64) :
    (vs.map b64Char).map b64Val = vs := by
  induction vs with
  | nil => rfl
  | cons v vs ih =>
      simp only [List.map_cons, List.cons.injEq]
      exact ⟨b64Val_b64Char ⟨v, h v (by simp)⟩,
        ih fun x hx => h x (by simp [hx])⟩

theorem b64DecodeVals_encodeVals (bs : List Nat) (h : ∀ b ∈ bs, b < 256) :
    b64DecodeVals (b64EncodeVals bs) = bs := by
  induction bs using b64EncodeVals.induct with
  | case1 a b c rest ih =>
      have ha := h a (by simp)
      have hb := h b (by simp)
      have hc := h c (by simp)
      simp only [b64EncodeVals, b64DecodeVals, List.cons.injEq]
      refine ⟨by omega, by omega, by omega, ih fun x hx => h x (by simp [hx])⟩
  | case2 a b =>
      have ha := h a (by simp)
      have hb := h b (by simp)
      simp only [b64EncodeVals, b64DecodeVals, List.cons.injEq, and_true]
      refine ⟨by omega, by omega⟩
  | case3 a =>
      have ha := h a (by simp)
      simp only [b64EncodeVals, b64DecodeVals, List.cons.injEq, and_true]
      omega
  | case4 => rfl

theorem filter_base64Encode (bs : List Nat) (h : ∀ b ∈ bs, b < 256) :
    (base64Encode bs).filter b64IsChar = (b64EncodeVals bs).map b64Char := by
  have hvals := b64EncodeVals_lt bs h
  unfold base64Encode
  rw [List.filter_append]
  have h1 : ((b64EncodeVals bs).map b64Char).filter b64IsChar
      = (b64EncodeVals bs).map b64Char := by
    apply List.filter_eq_self.mpr
    intro c hc
    obtain ⟨v, hv, rfl⟩ := List.mem_map.mp hc
    exact b64IsChar_b64Char ⟨v, hvals v hv⟩
  have h2 : (b64Pad (bs.length % 3)).filter b64IsChar = [] := by
    have : bs.length % 3 = 0 ∨ bs.length % 3 = 1 ∨ bs.length % 3 = 2 := by omega
    rcases this with h3 | h3 | h3 <;> rw [h3] <;> decide
  rw [h1, h2, List.append_nil]

/-- Lenient base64 decoding inverts base64 encoding on byte lists. -/
theorem b64DecodeJs_base64Encode (bs : List Nat) (h : ∀ b ∈ bs, b < 256) :
    b64DecodeJs (base64Encode bs) = bs := by
  unfold b64DecodeJs
  rw [filter_base64Encode bs h, map_b64Val_b64Char _ (b64EncodeVals_lt bs h),
    b64DecodeVals_encodeVals bs h]

theorem takeWhile_append_of_all {α : Type} (p : α → Bool) (l₁ l₂ : List α)
    (h : ∀ a ∈ l₁, p a) :
    (l₁ ++ l₂).takeWhile p = l₁ ++ l₂.takeWhile p := by
  induction l₁ with
  | nil => simp
  | cons a l ih =>
      simp only [List.cons_append, List.takeWhile_cons, h a (by simp), ih
        fun x hx => h x (by simp [hx]), if_true]

theorem b64Format_base64Encode (bs : List Nat) (h : ∀ b ∈ bs, b < 256) :
    b64Format ⟨base64Encode bs⟩ = true := by
  have hvals := b64EncodeVals_lt bs h
  have hall : ∀ c ∈ (b64EncodeVals bs).map b64Char, b64IsChar c := by
    intro c hc
    obtain ⟨v, hv, rfl⟩ := List.mem_map.mp hc
    exact b64IsChar_b64Char ⟨v, hvals v hv⟩
  have hmod : bs.length % 3 = 0 ∨ bs.length % 3 = 1 ∨ bs.length % 3 = 2 := by omega
  have hpadtw : (b64Pad (bs.length % 3)).takeWhile b64IsChar = [] := by
    rcases hmod with h3 | h3 | h3 <;> rw [h3] <;> decide
  have hcore : (base64Encode bs).takeWhile b64IsChar
      = (b64EncodeVals bs).map b64Char := by
    unfold base64Encode
    rw [takeWhile_append_of_all _ _ _ hall, hpadtw, List.append_nil]
  unfold b64Format
  simp only [hcore]
  rw [show ((base64Encode bs : List Char).drop ((b64EncodeVals bs).map b64Char).length)
      = b64Pad (bs.length % 3) by
    unfold base64Encode
    exact List.drop_left _ _]
  rcases hmod with h3 | h3 | h3 <;> rw [h3] <;> decide

/-! ### UTF-8

Embedding of `Buffer.from(s)` (UTF-8 encode) and
`buffer.toString('utf8')` (lenient UTF-8 decode, emitting U+FFFD for
malformed sequences). -/

/-- UTF-8 bytes of one Unicode scalar value. -/
def utf8EncodeChar (c : Char) : List Nat :=
  if c.toNat < 0x80 then [c.toNat]
  else if c.toNat < 0x800 then [0xC0 + c.toNat / 64, 0x80 + c.toNat % 64]
  else if c.toNat < 0x10000 then
    [0xE0 + c.toNat / 4096, 0x80 + (c.toNat / 64) % 64, 0x80 + c.toNat % 64]
  else
    [0xF0 + c.toNat / 262144, 0x80 + (c.toNat / 4096) % 64,
     0x80 + (c.toNat / 64) % 64, 0x80 + c.toNat % 64]

/-- UTF-8 bytes of a string, as produced by `Buffer.from(s)`. -/
def jsBufferFromUtf8 (s : String) : List Nat := s.data.flatMap utf8EncodeChar

/-- Whether a byte is a UTF-8 continuation byte. -/
def isCont (b : Nat) : Bool := 0x80 ≤ b && b < 0xC0

/-- One step of lenient UTF-8 decoding: given a lead byte and the bytes
after it, produce the decoded character (U+FFFD for malformed sequences:
truncated sequences, bad continuations, overlong forms, surrogates,
out-of-range values) and the not-yet-consumed bytes. -/
def utf8Step (b : Nat) (rest : List Nat) : Char × List Nat :=
  if b < 0x80 then (Char.ofNat b, rest)
  else if b < 0xC0 then (replacementChar, rest)
  else if b < 0xE0 then
    match rest with
    | b1 :: r =>
        if isCont b1 then
          ((if 0x80 ≤ (b - 0xC0) * 64 + (b1 - 0x80)
            then Char.ofNat ((b - 0xC0) * 64 + (b1 - 0x80))
            else replacementChar), r)
        else (replacementChar, b1 :: r)
    | [] => (replacementChar, [])
  else if b < 0xF0 then
    match rest with
    | b1 :: b2 :: r =>
        if isCont b1 && isCont b2 then
          ((if 0x800 ≤ (b - 0xE0) * 4096 + (b1 - 0x80) * 64 + (b2 - 0x80)
               ∧ ¬(0xD800 ≤ (b - 0xE0) * 4096 + (b1 - 0x80) * 64 + (b2 - 0x80)
                   ∧ (b - 0xE0) * 4096 + (b1 - 0x80) * 64 + (b2 - 0x80) < 0xE000)
            then Char.ofNat ((b - 0xE0) * 4096 + (b1 - 0x80) * 64 + (b2 - 0x80))
            else replacementChar), r)
        else (replacementChar, b1 :: b2 :: r)
    | [b1] => if isCont b1 then (replacementChar, []) else (replacementChar, [b1])
    | [] => (replacementChar, [])
  else if b < 0xF8 then
    match rest with
    | b1 :: b2 :: b3 :: r =>
        if isCont b1 && isCont b2 && isCont b3 then
          ((if 0x10000 ≤ (b - 0xF0) * 262144 + (b1 - 0x80) * 4096
                + (b2 - 0x80) * 64 + (b3 - 0x80)
               ∧ (b - 0xF0) * 262144 + (b1 - 0x80) * 4096
                + (b2 - 0x80) * 64 + (b3 - 0x80) < 0x110000
            then Char.ofNat ((b - 0xF0) * 262144 + (b1 - 0x80) * 4096
                + (b2 - 0x80) * 64 + (b3 - 0x80))
            else replacementChar), r)
        else (replacementChar, b1 :: b2 :: b3 :: r)
    | [b1, b2] =>
        if isCont b1 && isCont b2 then (replacementChar, [])
        else (replacementChar, [b1, b2])
    | [b1] => if isCont b1 then (replacementChar, []) else (replacementChar, [b1])
    | [] => (replacementChar, [])
  else (replacementChar, rest)

theorem utf8Step_length (b : Nat) (rest : List Nat) :
    (utf8Step b rest).2.length ≤ rest.length := by
  unfold utf8Step
  split_ifs with h1 h2 h3 h4 h5
  · simp
  · simp
  · rcases rest with _ | ⟨b1, r⟩
    · simp
    · by_cases hc : isCont b1 = true <;> simp [hc]
  · rcases rest with _ | ⟨b1, _ | ⟨b2, r⟩⟩
    · simp
    · by_cases hc : isCont b1 = true <;> simp [hc]
    · by_cases hc : (isCont b1 && isCont b2) = true <;> simp [hc] <;> omega
  · rcases rest with _ | ⟨b1, _ | ⟨b2, _ | ⟨b3, r⟩⟩⟩
    · simp
    · by_cases hc : isCont b1 = true <;> simp [hc]
    · by_cases hc : (isCont b1 && isCont b2) = true <;> simp [hc]
    · by_cases hc : (isCont b1 && isCont b2 && isCont b3) = true <;> simp [hc] <;>
        omega
  · simp

/-- Fuelled lenient UTF-8 decoding; each iteration consumes at least one
byte, so fuel equal to the byte count never runs out. -/
def jsUtf8ToStringF : Nat → List Nat → List Char
  | 0, _ => []
  | _ + 1, [] => []
  | fuel + 1, b :: rest =>
      (utf8Step b rest).1 :: jsUtf8ToStringF fuel (utf8Step b rest).2

/-- Lenient UTF-8 decoding of a byte list as `buffer.toString('utf8')`
performs it. -/
def jsUtf8ToString (bs : List Nat) : List Char := jsUtf8ToStringF bs.length bs

/-- The fuel does not matter once it covers the byte count. -/
theorem jsUtf8ToStringF_fuel (fuel₁ : Nat) :
    ∀ (fuel₂ : Nat) (bs : List Nat), bs.length ≤ fuel₁ → bs.length ≤ fuel₂ →
      jsUtf8ToStringF fuel₁ bs = jsUtf8ToStringF fuel₂ bs := by
  induction fuel₁ with
  | zero =>
      intro fuel₂ bs h1 _
      have : bs = [] := List.length_eq_zero.mp (by omega)
      subst this
      rcases fuel₂ with _ | g <;> rfl
  | succ f ih =>
      intro fuel₂ bs h1 h2
      rcases bs with _ | ⟨b, rest⟩
      · rcases fuel₂ with _ | g <;> rfl
      · rcases fuel₂ with _ | g
        · simp at h2
        · simp only [jsUtf8ToStringF]
          have hs := utf8Step_length b rest
          simp only [List.length_cons] at h1 h2
          rw [ih g (utf8Step b rest).2 (by omega) (by omega)]

theorem char_toNat_valid (c : Char) :
    c.toNat < 0xD800 ∨ (0xE000 ≤ c.toNat ∧ c.toNat < 0x110000) := by
  have h := c.valid
  have he : c.toNat = c.val.toNat := rfl
  rcases h with h | h
  · left
    rw [he]
    exact h
  · right
    rw [he]
    exact ⟨by omega, h.2⟩

theorem utf8EncodeChar_lt (c : Char) : ∀ b ∈ utf8EncodeChar c, b < 256 := by
  have hv := char_toNat_valid c
  intro b hb
  unfold utf8EncodeChar at hb
  split_ifs at hb with h1 h2 h3
  · simp only [List.mem_cons, List.not_mem_nil, or_false] at hb
    omega
  · simp only [List.mem_cons, List.not_mem_nil, or_false] at hb
    rcases hb with rfl | rfl <;> omega
  · simp only [List.mem_cons, List.not_mem_nil, or_false] at hb
    rcases hb with rfl | rfl | rfl <;> omega
  · simp only [List.mem_cons, List.not_mem_nil, or_false] at hb
    rcases hb with rfl | rfl | rfl | rfl <;> omega

theorem jsBufferFromUtf8_lt (s : String) : ∀ b ∈ jsBufferFromUtf8 s, b < 256 := by
  intro b hb
  unfold jsBufferFromUtf8 at hb
  obtain ⟨c, _, hc⟩ := List.mem_flatMap.mp hb
  exact utf8EncodeChar_lt c b hc

theorem isCont_cont (n : Nat) (h : n < 64) : isCont (0x80 + n) = true := by
  unfold isCont
  simp only [Bool.and_eq_true, decide_eq_true_eq]
  omega

/-- Decoding steps over one encoded scalar, yielding that scalar and the
remaining bytes. -/
theorem utf8Step_encodeChar (c : Char) (rest : List Nat) :
    utf8Step ((utf8EncodeChar c).headD 0) ((utf8EncodeChar c).tail ++ rest)
      = (c, rest) := by
  have hv := char_toNat_valid c
  have hofNat : Char.ofNat c.toNat = c := Char.ofNat_toNat c
  by_cases ha : c.toNat < 0x80
  · rw [show utf8EncodeChar c = [c.toNat] by unfold utf8EncodeChar; rw [if_pos ha]]
    simp only [List.headD_cons, List.tail_cons, List.nil_append]
    unfold utf8Step
    rw [if_pos ha, hofNat]
  · by_cases hb : c.toNat < 0x800
    · rw [show utf8EncodeChar c = [0xC0 + c.toNat / 64, 0x80 + c.toNat % 64] by
        unfold utf8EncodeChar; rw [if_neg ha, if_pos hb]]
      simp only [List.headD_cons, List.tail_cons, List.cons_append, List.nil_append]
      unfold utf8Step
      rw [if_neg (by omega), if_neg (by omega), if_pos (by omega)]
      simp only [isCont_cont (c.toNat % 64) (by omega), if_true]
      rw [show (0xC0 + c.toNat / 64 - 0xC0) * 64 + (0x80 + c.toNat % 64 - 0x80)
          = c.toNat by omega]
      rw [if_pos (by omega), hofNat]
    · by_cases hc : c.toNat < 0x10000
      · rw [show utf8EncodeChar c
            = [0xE0 + c.toNat / 4096, 0x80 + (c.toNat / 64) % 64,
               0x80 + c.toNat % 64] by
          unfold utf8EncodeChar; rw [if_neg ha, if_neg hb, if_pos hc]]
        simp only [List.headD_cons, List.tail_cons, List.cons_append, List.nil_append]
        unfold utf8Step
        rw [if_neg (by omega), if_neg (by omega), if_neg (by omega), if_pos (by omega)]
        simp only [isCont_cont ((c.toNat / 64) % 64) (by omega),
          isCont_cont (c.toNat % 64) (by omega), Bool.and_self, if_true]
        rw [show (0xE0 + c.toNat / 4096 - 0xE0) * 4096
            + (0x80 + (c.toNat / 64) % 64 - 0x80) * 64
            + (0x80 + c.toNat % 64 - 0x80) = c.toNat by omega]
        rw [if_pos (by omega), hofNat]
      · have hlt : c.toNat < 0x110000 := by
          rcases hv with h | h
          · omega
          · exact h.2
        rw [show utf8EncodeChar c
            = [0xF0 + c.toNat / 262144, 0x80 + (c.toNat / 4096) % 64,
               0x80 + (c.toNat / 64) % 64, 0x80 + c.toNat % 64] by
          unfold utf8EncodeChar; rw [if_neg ha, if_neg hb, if_neg hc]]
        simp only [List.headD_cons, List.tail_cons, List.cons_append, List.nil_append]
        unfold utf8Step
        rw [if_neg (by omega), if_neg (by omega), if_neg (by omega),
          if_neg (by omega), if_pos (by omega)]
        simp only [isCont_cont ((c.toNat / 4096) % 64) (by omega),
          isCont_cont ((c.toNat / 64) % 64) (by omega),
          isCont_cont (c.toNat % 64) (by omega), Bool.and_self, if_true]
        rw [show (0xF0 + c.toNat / 262144 - 0xF0) * 262144
            + (0x80 + (c.toNat / 4096) % 64 - 0x80) * 4096
            + (0x80 + (c.toNat / 64) % 64 - 0x80) * 64
            + (0x80 + c.toNat % 64 - 0x80) = c.toNat by omega]
        rw [if_pos (by omega), hofNat]

theorem utf8EncodeChar_ne_nil (c : Char) : utf8EncodeChar c ≠ [] := by
  unfold utf8EncodeChar
  split_ifs <;> simp

theorem jsUtf8ToString_encodeChar (c : Char) (rest : List Nat) :
    jsUtf8ToString (utf8EncodeChar c ++ rest) = c :: jsUtf8ToString rest := by
  have hstep := utf8Step_encodeChar c rest
  have hne := utf8EncodeChar_ne_nil c
  unfold jsUtf8ToString
  rcases he : utf8EncodeChar c with _ | ⟨b, tail⟩
  · exact absurd he hne
  · rw [he] at hstep
    simp only [List.headD_cons, List.tail_cons] at hstep
    rw [List.cons_append]
    have hlen : ((b :: (tail ++ rest)).length) = (tail ++ rest).length + 1 := by
      simp
    rw [hlen]
    simp only [jsUtf8ToStringF, hstep]
    rw [jsUtf8ToStringF_fuel ((tail ++ rest).length) rest.length rest
      (by simp) (by omega)]

/-- Lenient UTF-8 decoding inverts UTF-8 encoding of any string. -/
theorem jsUtf8ToString_jsBufferFromUtf8 (s : String) :
    jsUtf8ToString (jsBufferFromUtf8 s) = s.data := by
  unfold jsBufferFromUtf8
  induction s.data with
  | nil => rfl
  | cons c cs ih =>
      rw [List.flatMap_cons, jsUtf8ToString_encodeChar c (cs.flatMap utf8EncodeChar), ih]

/-! ### Date components and the ISO 8601 wire format

A JavaScript Date that flows through the cursor codec is only ever printed
with `toISOString` and re-read with `new Date(string)`.  It is therefore
embedded as its printed calendar components; two Dates are equal exactly
when their components are. -/

/-- Calendar components of a timestamp as rendered by `toISOString`. -/
structure IsoDate where
  year : Nat
  month : Nat
  day : Nat
  hour : Nat
  minute : Nat
  second : Nat
  ms : Nat
deriving DecidableEq, Repr

/-- Decimal digit character. -/
def digitChar (d : Nat) : Char := Char.ofNat (48 + d)

/-- Two-digit zero-padded decimal rendering. -/
def pad2 (n : Nat) : List Char := [digitChar (n / 10 % 10), digitChar (n % 10)]

/-- Three-digit zero-padded decimal rendering. -/
def pad3 (n : Nat) : List Char :=
  [digitChar (n / 100 % 10), digitChar (n / 10 % 10), digitChar (n % 10)]

/-- Four-digit zero-padded decimal rendering. -/
def pad4 (n : Nat) : List Char :=
  [digitChar (n / 1000 % 10), digitChar (n / 100 % 10), digitChar (n / 10 % 10),
   digitChar (n % 10)]

/-- The `Date.prototype.toISOString` rendering
`YYYY-MM-DDTHH:mm:ss.sssZ` of date components. -/
def toISOString (d : IsoDate) : String :=
  ⟨pad4 d.year ++ Char.ofNat 45 :: pad2 d.month ++ Char.ofNat 45 :: pad2 d.day
    ++ Char.ofNat 84 :: pad2 d.hour ++ Char.ofNat 58 :: pad2 d.minute
    ++ Char.ofNat 58 :: pad2 d.second ++ Char.ofNat 46 :: pad3 d.ms
    ++ [Char.ofNat 90]⟩

/-- Reading exactly the given number of decimal digits, accumulating their
value. -/
def readDigitsAux (acc : Nat) : Nat → List Char → Option (Nat × List Char)
  | 0, cs => some (acc, cs)
  | _ + 1, [] => none
  | k + 1, c :: cs =>
      if c.isDigit then readDigitsAux (acc * 10 + (c.toNat - 48)) k cs else none

/-- Consuming one expected literal character. -/
def expectChar (e : Char) : List Char → Option (List Char)
  | [] => none
  | c :: cs => if c = e then some cs else none

/-- Sequencing helper: continue with the parsed number and remaining
characters, or fail. -/
def stepNum (o : Option (Nat × List Char)) (f : Nat → List Char → Option IsoDate) :
    Option IsoDate :=
  match o with
  | none => none
  | some (n, cs) => f n cs

/-- Sequencing helper: continue with the remaining characters, or fail. -/
def stepChr (o : Option (List Char)) (f : List Char → Option IsoDate) :
    Option IsoDate :=
  match o with
  | none => none
  | some cs => f cs

/-- Parsing of the strict `YYYY-MM-DDTHH:mm:ss.sssZ` form with field range
validation. -/
def parseIsoChars (cs0 : List Char) : Option IsoDate :=
  stepNum (readDigitsAux 0 4 cs0) fun y cs =>
  stepChr (expectChar (Char.ofNat 45) cs) fun cs =>
  stepNum (readDigitsAux 0 2 cs) fun mo cs =>
  stepChr (expectChar (Char.ofNat 45) cs) fun cs =>
  stepNum (readDigitsAux 0 2 cs) fun dd cs =>
  stepChr (expectChar (Char.ofNat 84) cs) fun cs =>
  stepNum (readDigitsAux 0 2 cs) fun hh cs =>
  stepChr (expectChar (Char.ofNat 58) cs) fun cs =>
  stepNum (readDigitsAux 0 2 cs) fun mi cs =>
  stepChr (expectChar (Char.ofNat 58) cs) fun cs =>
  stepNum (readDigitsAux 0 2 cs) fun ss cs =>
  stepChr (expectChar (Char.ofNat 46) cs) fun cs =>
  stepNum (readDigitsAux 0 3 cs) fun ms cs =>
  stepChr (expectChar (Char.ofNat 90) cs) fun cs =>
  match cs with
  | [] =>
      if 1 ≤ mo ∧ mo ≤ 12 ∧ 1 ≤ dd ∧ dd ≤ 31 ∧ hh ≤ 23 ∧ mi ≤ 59 ∧ ss ≤ 59
      then some ⟨y, mo, dd, hh, mi, ss, ms⟩
      else none
  | _ => none

theorem stepNum_some (n : Nat) (cs : List Char)
    (f : Nat → List Char → Option IsoDate) :
    stepNum (some (n, cs)) f = f n cs := rfl

theorem stepChr_some (cs : List Char) (f : List Char → Option IsoDate) :
    stepChr (some cs) f = f cs := rfl

/-- Model of `new Date(string)` followed by an `isNaN(getTime())` validity
test: the strict ISO form parses to its components, everything else is an
Invalid Date (`none`).  The engine also accepts some shorter date forms,
which no behavior verified here exercises. -/
def jsDateParse (s : String) : Option IsoDate := parseIsoChars s.data

theorem expectChar_cons (e : Char) (cs : List Char) :
    expectChar e (e :: cs) = some cs := by
  show (if e = e then some cs else none) = some cs
  rw [if_pos rfl]

theorem digitChar_isDigit (k : Nat) (h : k < 10) : (digitChar k).isDigit = true := by
  interval_cases k <;> decide

theorem digitChar_toNat (k : Nat) (h : k < 10) : (digitChar k).toNat = 48 + k := by
  interval_cases k <;> decide

theorem readDigits_pad2 (n : Nat) (h : n < 100) (rest : List Char) :
    readDigitsAux 0 2 (pad2 n ++ rest) = some (n, rest) := by
  have i1 := digitChar_isDigit (n / 10 % 10) (by omega)
  have i2 := digitChar_isDigit (n % 10) (by omega)
  have t1 := digitChar_toNat (n / 10 % 10) (by omega)
  have t2 := digitChar_toNat (n % 10) (by omega)
  simp only [pad2, List.cons_append, List.nil_append, readDigitsAux, i1, i2,
    if_true, t1, t2, Option.some.injEq, Prod.mk.injEq]
  exact ⟨by omega, rfl⟩

theorem readDigits_pad3 (n : Nat) (h : n < 1000) (rest : List Char) :
    readDigitsAux 0 3 (pad3 n ++ rest) = some (n, rest) := by
  have i1 := digitChar_isDigit (n / 100 % 10) (by omega)
  have i2 := digitChar_isDigit (n / 10 % 10) (by omega)
  have i3 := digitChar_isDigit (n % 10) (by omega)
  have t1 := digitChar_toNat (n / 100 % 10) (by omega)
  have t2 := digitChar_toNat (n / 10 % 10) (by omega)
  have t3 := digitChar_toNat (n % 10) (by omega)
  simp only [pad3, List.cons_append, List.nil_append, readDigitsAux, i1, i2, i3,
    if_true, t1, t2, t3, Option.some.injEq, Prod.mk.injEq]
  exact ⟨by omega, rfl⟩

theorem readDigits_pad4 (n : Nat) (h : n < 10000) (rest : List Char) :
    readDigitsAux 0 4 (pad4 n ++ rest) = some (n, rest) := by
  have i1 := digitChar_isDigit (n / 1000 % 10) (by omega)
  have i2 := digitChar_isDigit (n / 100 % 10) (by omega)
  have i3 := digitChar_isDigit (n / 10 % 10) (by omega)
  have i4 := digitChar_isDigit (n % 10) (by omega)
  have t1 := digitChar_toNat (n / 1000 % 10) (by omega)
  have t2 := digitChar_toNat (n / 100 % 10) (by omega)
  have t3 := digitChar_toNat (n / 10 % 10) (by omega)
  have t4 := digitChar_toNat (n % 10) (by omega)
  simp only [pad4, List.cons_append, List.nil_append, readDigitsAux, i1, i2, i3, i4,
    if_true, t1, t2, t3, t4, Option.some.injEq, Prod.mk.injEq]
  exact ⟨by omega, rfl⟩

/-- Validity of date components in the sense of the parser checks, together
with printability in fixed width. -/
def IsoDate.wf (d : IsoDate) : Prop :=
  d.year < 10000 ∧ 1 ≤ d.month ∧ d.month ≤ 12 ∧ 1 ≤ d.day ∧ d.day ≤ 31
    ∧ d.hour ≤ 23 ∧ d.minute ≤ 59 ∧ d.second ≤ 59 ∧ d.ms ≤ 999

instance (d : IsoDate) : Decidable d.wf := by
  unfold IsoDate.wf
  infer_instance

/-- Parsing inverts printing on well-formed date components. -/
theorem jsDateParse_toISOString (d : IsoDate) (h : d.wf) :
    jsDateParse (toISOString d) = some d := by
  obtain ⟨h1, h2, h3, h4, h5, h6, h7, h8, h9⟩ := h
  unfold jsDateParse toISOString parseIsoChars
  simp only [List.append_assoc, List.cons_append]
  rw [readDigits_pad4 d.year (by omega), stepNum_some, expectChar_cons, stepChr_some,
    readDigits_pad2 d.month (by omega), stepNum_some, expectChar_cons, stepChr_some,
    readDigits_pad2 d.day (by omega), stepNum_some, expectChar_cons, stepChr_some,
    readDigits_pad2 d.hour (by omega), stepNum_some, expectChar_cons, stepChr_some,
    readDigits_pad2 d.minute (by omega), stepNum_some, expectChar_cons, stepChr_some,
    readDigits_pad2 d.second (by omega), stepNum_some, expectChar_cons, stepChr_some,
    readDigits_pad3 d.ms (by omega), stepNum_some, expectChar_cons, stepChr_some]
  rw [if_pos ⟨h2, h3, h4, h5, h6, h7, h8⟩]

/-! ### JSON

Embedding of `JSON.stringify` on the composite-cursor object and of
`JSON.parse`.  Numbers are modeled as exact rationals; surrogate-pair
escape sequences (which cannot occur in the strings produced or consumed
by the verified behaviors) decode to U+FFFD. -/

/-- Parsed JSON value. -/
inductive JValue where
  | jnull
  | jbool (b : Bool)
  | jnum (q : ℚ)
  | jstr (s : List Char)
  | jarr (elems : List JValue)
  | jobj (fields : List (List Char × JValue))

def quoteChar : Char := Char.ofNat 34
def backslashChar : Char := Char.ofNat 92
def lbraceChar : Char := Char.ofNat 123
def rbraceChar : Char := Char.ofNat 125
def lbrackChar : Char := Char.ofNat 91
def rbrackChar : Char := Char.ofNat 93

/-- Lowercase hexadecimal digit character. -/
def hexDigitChar (d : Nat) : Char :=
  if d < 10 then Char.ofNat (48 + d) else Char.ofNat (87 + d)

/-- JSON string escaping of one character, as `JSON.stringify` performs it. -/
def escChar (c : Char) : List Char :=
  if c = quoteChar then [backslashChar, quoteChar]
  else if c = backslashChar then [backslashChar, backslashChar]
  else if c = Char.ofNat 8 then [backslashChar, 'b']
  else if c = Char.ofNat 9 then [backslashChar, 't']
  else if c = Char.ofNat 10 then [backslashChar, 'n']
  else if c = Char.ofNat 12 then [backslashChar, 'f']
  else if c = Char.ofNat 13 then [backslashChar, 'r']
  else if c.toNat < 32 then
    [backslashChar, 'u', '0', '0', hexDigitChar (c.toNat / 16),
     hexDigitChar (c.toNat % 16)]
  else [c]

/-- JSON string escaping of a character sequence. -/
def jsonEscape (cs : List Char) : List Char := cs.flatMap escChar

/-- The exact characters of
`JSON.stringify(\x7b deviceUuid, time: time.toISOString() \x7d)`. -/
def stringifyComposite (deviceUuid : List Char) (time : IsoDate) : List Char :=
  [lbraceChar, quoteChar] ++ jsonEscape "deviceUuid".data
    ++ [quoteChar, ':', quoteChar] ++ jsonEscape deviceUuid
    ++ [quoteChar, ',', quoteChar] ++ jsonEscape "time".data
    ++ [quoteChar, ':', quoteChar] ++ jsonEscape (toISOString time).data
    ++ [quoteChar, rbraceChar]

/-- Value of a hexadecimal digit character. -/
def hexVal (c : Char) : Option Nat :=
  if 48 ≤ c.toNat ∧ c.toNat ≤ 57 then some (c.toNat - 48)
  else if 97 ≤ c.toNat ∧ c.toNat ≤ 102 then some (c.toNat - 87)
  else if 65 ≤ c.toNat ∧ c.toNat ≤ 70 then some (c.toNat - 55)
  else none

/-- Outcome of one step of string-literal scanning. -/
inductive JStrStep where
  | done (rest : List Char)
  | chr (c : Char) (rest : List Char)
  | err

/-- One step of JSON string literal scanning (the opening quote already
consumed): a closing quote ends the literal, escape sequences decode to
their character (a `\u` escape denoting a surrogate half, impossible to
represent as a scalar value, decodes to U+FFFD), raw control characters
are rejected, and any other character stands for itself. -/
def jstrStep (c : Char) (cs : List Char) : JStrStep :=
  if c = quoteChar then .done cs
  else if c = backslashChar then
    match cs with
    | [] => .err
    | e :: cs2 =>
      if e = quoteChar ∨ e = backslashChar ∨ e = '/' then .chr e cs2
      else if e = 'b' then .chr (Char.ofNat 8) cs2
      else if e = 'f' then .chr (Char.ofNat 12) cs2
      else if e = 'n' then .chr (Char.ofNat 10) cs2
      else if e = 'r' then .chr (Char.ofNat 13) cs2
      else if e = 't' then .chr (Char.ofNat 9) cs2
      else if e = 'u' then
        match cs2 with
        | h1 :: h2 :: h3 :: h4 :: cs3 =>
          match hexVal h1, hexVal h2, hexVal h3, hexVal h4 with
          | some v1, some v2, some v3, some v4 =>
              .chr (if 0xD800 ≤ ((v1 * 16 + v2) * 16 + v3) * 16 + v4
                       ∧ ((v1 * 16 + v2) * 16 + v3) * 16 + v4 < 0xE000
                    then replacementChar
                    else Char.ofNat (((v1 * 16 + v2) * 16 + v3) * 16 + v4)) cs3
          | _, _, _, _ => .err
        | _ => .err
      else .err
  else if c.toNat < 32 then .err
  else .chr c cs

/-- Fuelled JSON string literal body parsing: returns the decoded
characters and the input after the closing quote. -/
def parseJStrF : Nat → List Char → Option (List Char × List Char)
  | 0, _ => none
  | fuel + 1, cs =>
    match cs with
    | [] => none
    | c :: cs =>
      match jstrStep c cs with
      | .done rest => some ([], rest)
      | .err => none
      | .chr ch rest =>
        match parseJStrF fuel rest with
        | some (s, r) => some (ch :: s, r)
        | none => none

/-- JSON string literal body parsing; the fuel bound exceeds the input
length, so it never runs out. -/
def parseJStr (cs : List Char) : Option (List Char × List Char) :=
  parseJStrF (cs.length + 1) cs

/-- JSON whitespace. -/
def isJsonWs (c : Char) : Bool :=
  c = Char.ofNat 32 || c = Char.ofNat 9 || c = Char.ofNat 10 || c = Char.ofNat 13

/-- Whitespace skipping. -/
def skipWs (cs : List Char) : List Char := cs.dropWhile isJsonWs

/-- Consuming an expected literal character sequence. -/
def expectChars : List Char → List Char → Option (List Char)
  | [], cs => some cs
  | e :: es, c :: cs => if c = e then expectChars es cs else none
  | _ :: _, [] => none

/-- Digit-run splitting. -/
def takeDigits (cs : List Char) : List Char × List Char :=
  (cs.takeWhile Char.isDigit, cs.dropWhile Char.isDigit)

/-- Numeric value of a digit run. -/
def digitsVal (ds : List Char) : Nat :=
  ds.foldl (fun a c => a * 10 + (c.toNat - 48)) 0

/-- JSON number parsing (sign, integer part, optional fraction, optional
exponent), producing an exact rational. -/
def parseJNum (cs : List Char) : Option (ℚ × List Char) :=
  let signAndRest : Bool × List Char :=
    match cs with
    | c :: r => if c = '-' then (true, r) else (false, cs)
    | [] => (false, [])
  let (ids, cs2) := takeDigits signAndRest.2
  if ids.isEmpty then none
  else
    let intPart : ℚ := (digitsVal ids : ℚ)
    let fracAndRest : Option (ℚ × List Char) :=
      match cs2 with
      | c :: r =>
          if c = '.' then
            let (fds, r2) := takeDigits r
            if fds.isEmpty then none
            else some ((digitsVal fds : ℚ) / ((10 : ℚ) ^ fds.length), r2)
          else some (0, cs2)
      | [] => some (0, [])
    match fracAndRest with
    | none => none
    | some (fracPart, cs3) =>
        let expAndRest : Option (Int × List Char) :=
          match cs3 with
          | c :: r =>
              if c = 'e' ∨ c = 'E' then
                match r with
                | s :: r2 =>
                    if s = '+' then
                      let (eds, r3) := takeDigits r2
                      if eds.isEmpty then none else some ((digitsVal eds : Int), r3)
                    else if s = '-' then
                      let (eds, r3) := takeDigits r2
                      if eds.isEmpty then none else some (-(digitsVal eds : Int), r3)
                    else
                      let (eds, r3) := takeDigits r
                      if eds.isEmpty then none else some ((digitsVal eds : Int), r3)
                | [] => none
              else some (0, cs3)
          | [] => some (0, [])
        match expAndRest with
        | none => none
        | some (e, cs4) =>
            let mag : ℚ := (intPart + fracPart) * (10 : ℚ) ^ e
            some (if signAndRest.1 then -mag else mag, cs4)

mutual

/-- JSON value parsing with fuel; each recursion level consumes at least one
character, so fuel exceeding the input length never runs out. -/
def parseJValue : Nat → List Char → Option (JValue × List Char)
  | 0, _ => none
  | fuel + 1, cs =>
    match skipWs cs with
    | [] => none
    | c :: r =>
      if c = quoteChar then
        match parseJStr r with
        | some (s, rest) => some (.jstr s, rest)
        | none => none
      else if c = lbraceChar then
        match skipWs r with
        | c2 :: r2 =>
            if c2 = rbraceChar then some (.jobj [], r2)
            else
              match parseJMembers fuel (c2 :: r2) with
              | some (fields, rest) => some (.jobj fields, rest)
              | none => none
        | [] => none
      else if c = lbrackChar then
        match skipWs r with
        | c2 :: r2 =>
            if c2 = rbrackChar then some (.jarr [], r2)
            else
              match parseJElems fuel (c2 :: r2) with
              | some (elems, rest) => some (.jarr elems, rest)
              | none => none
        | [] => none
      else if c = 't' then
        match expectChars "rue".data r with
        | some rest => some (.jbool true, rest)
        | none => none
      else if c = 'f' then
        match expectChars "alse".data r with
        | some rest => some (.jbool false, rest)
        | none => none
      else if c = 'n' then
        match expectChars "ull".data r with
        | some rest => some (.jnull, rest)
        | none => none
      else
        match parseJNum (c :: r) with
        | some (q, rest) => some (.jnum q, rest)
        | none => none

/-- Object member list parsing (at least one member, closing brace
consumed). -/
def parseJMembers : Nat → List Char → Option (List (List Char × JValue) × List Char)
  | 0, _ => none
  | fuel + 1, cs =>
    match skipWs cs with
    | c :: r =>
        if c = quoteChar then
          match parseJStr r with
          | some (key, rest) =>
              match skipWs rest with
              | c2 :: r2 =>
                  if c2 = ':' then
                    match parseJValue fuel r2 with
                    | some (v, rest2) =>
                        match skipWs rest2 with
                        | c3 :: r3 =>
                            if c3 = ',' then
                              match parseJMembers fuel r3 with
                              | some (fields, rest3) =>
                                  some ((key, v) :: fields, rest3)
                              | none => none
                            else if c3 = rbraceChar then some ([(key, v)], r3)
                            else none
                        | [] => none
                    | none => none
                  else none
              | [] => none
          | none => none
        else none
    | [] => none

/-- Array element list parsing (at least one element, closing bracket
consumed). -/
def parseJElems : Nat → List Char → Option (List JValue × List Char)
  | 0, _ => none
  | fuel + 1, cs =>
    match parseJValue fuel cs with
    | some (v, rest) =>
        match skipWs rest with
        | c :: r =>
            if c = ',' then
              match parseJElems fuel r with
              | some (elems, rest2) => some (v :: elems, rest2)
              | none => none
            else if c = rbrackChar then some ([v], r)
            else none
        | [] => none
    | none => none

end

/-- Model of `JSON.parse`: parse one value, require only whitespace after
it. -/
def jsonParse (s : String) : Option JValue :=
  match parseJValue (s.data.length + 2) s.data with
  | some (v, rest) => if (skipWs rest).isEmpty then some v else none
  | none => none

theorem skipWs_cons (c : Char) (cs : List Char) (h : isJsonWs c = false) :
    skipWs (c :: cs) = c :: cs := by
  simp [skipWs, List.dropWhile_cons, h]

theorem hexVal_hexDigitChar (d : Nat) (h : d < 16) :
    hexVal (hexDigitChar d) = some d := by
  interval_cases d <;> decide

theorem escChar_ne_nil (c : Char) : escChar c ≠ [] := by
  unfold escChar
  split_ifs <;> simp

/-- Scanning steps over one escaped character, yielding that character and
the remaining input. -/
theorem jstrStep_escChar (c : Char) (X : List Char) :
    jstrStep ((escChar c).headD 'x') ((escChar c).tail ++ X) = .chr c X := by
  by_cases h1 : c = quoteChar
  · subst h1
    show jstrStep backslashChar (quoteChar :: X) = _
    unfold jstrStep
    rw [if_neg (by decide), if_pos rfl]
    simp
  · by_cases h2 : c = backslashChar
    · subst h2
      show jstrStep backslashChar (backslashChar :: X) = _
      unfold jstrStep
      rw [if_neg (by decide), if_pos rfl]
      simp
    · by_cases h3 : c = Char.ofNat 8
      · subst h3
        show jstrStep backslashChar (Char.ofNat 98 :: X) = _
        unfold jstrStep
        rw [if_neg (by decide), if_pos rfl]
        simp
        exact ⟨by decide, by decide⟩
      · by_cases h4 : c = Char.ofNat 9
        · subst h4
          show jstrStep backslashChar (Char.ofNat 116 :: X) = _
          unfold jstrStep
          rw [if_neg (by decide), if_pos rfl]
          simp
          exact ⟨by decide, by decide⟩
        · by_cases h5 : c = Char.ofNat 10
          · subst h5
            show jstrStep backslashChar (Char.ofNat 110 :: X) = _
            unfold jstrStep
            rw [if_neg (by decide), if_pos rfl]
            simp
            exact ⟨by decide, by decide⟩
          · by_cases h6 : c = Char.ofNat 12
            · subst h6
              show jstrStep backslashChar (Char.ofNat 102 :: X) = _
              unfold jstrStep
              rw [if_neg (by decide), if_pos rfl]
              simp
              exact ⟨by decide, by decide⟩
            · by_cases h7 : c = Char.ofNat 13
              · subst h7
                show jstrStep backslashChar (Char.ofNat 114 :: X) = _
                unfold jstrStep
                rw [if_neg (by decide), if_pos rfl]
                simp
                exact ⟨by decide, by decide⟩
              · by_cases h8 : c.toNat < 32
                · rw [show escChar c
                      = [backslashChar, 'u', '0', '0', hexDigitChar (c.toNat / 16),
                         hexDigitChar (c.toNat % 16)] by
                    unfold escChar
                    rw [if_neg h1, if_neg h2, if_neg h3, if_neg h4, if_neg h5,
                      if_neg h6, if_neg h7, if_pos h8]]
                  show jstrStep backslashChar ('u' :: '0' :: '0'
                    :: hexDigitChar (c.toNat / 16) :: hexDigitChar (c.toNat % 16)
                    :: X) = _
                  unfold jstrStep
                  rw [if_neg (by decide), if_pos rfl]
                  simp only [show (('u' = quoteChar ∨ 'u' = backslashChar
                    ∨ 'u' = Char.ofNat 47)) = False by simp; decide, if_false]
                  rw [if_neg (by decide), if_neg (by decide), if_neg (by decide),
                    if_neg (by decide), if_neg (by decide), if_pos trivial]
                  rw [show hexVal '0' = some 0 from by decide,
                    hexVal_hexDigitChar (c.toNat / 16) (by omega),
                    hexVal_hexDigitChar (c.toNat % 16) (by omega)]
                  have harith : ((0 * 16 + 0) * 16 + c.toNat / 16) * 16
                      + c.toNat % 16 = c.toNat := by omega
                  have hno : ¬(55296 ≤ ((0 * 16 + 0) * 16 + c.toNat / 16) * 16
                      + c.toNat % 16 ∧ ((0 * 16 + 0) * 16 + c.toNat / 16) * 16
                      + c.toNat % 16 < 57344) := by omega
                  simp only [hno, if_false, harith, Char.ofNat_toNat, if_neg hno]
                  simp [harith, Char.ofNat_toNat]
                  intro h9
                  omega
                · rw [show escChar c = [c] by
                    unfold escChar
                    rw [if_neg h1, if_neg h2, if_neg h3, if_neg h4, if_neg h5,
                      if_neg h6, if_neg h7, if_neg h8]]
                  show jstrStep c X = _
                  unfold jstrStep
                  rw [if_neg h1, if_neg h2, if_neg (by omega : ¬ c.toNat < 32)]

/-- Fuelled string scanning inverts escaping, given enough fuel. -/
theorem parseJStrF_escape (u : List Char) (X : List Char) :
    ∀ fuel, u.length + 1 ≤ fuel →
      parseJStrF fuel (jsonEscape u ++ quoteChar :: X) = some (u, X) := by
  induction u with
  | nil =>
      intro fuel hf
      rcases fuel with _ | f
      · omega
      · simp only [jsonEscape, List.flatMap_nil, List.nil_append, parseJStrF]
        rw [show jstrStep quoteChar X = .done X by unfold jstrStep; rw [if_pos rfl]]
  | cons c cs ih =>
      intro fuel hf
      rcases fuel with _ | f
      · simp at hf
      · have hesc : jsonEscape (c :: cs) ++ quoteChar :: X
            = (escChar c).headD 'x' :: ((escChar c).tail
              ++ (jsonEscape cs ++ quoteChar :: X)) := by
          rcases he : escChar c with _ | ⟨e, etail⟩
          · exact absurd he (escChar_ne_nil c)
          · simp [jsonEscape, he, List.flatMap_cons]
        rw [hesc]
        simp only [parseJStrF]
        rw [jstrStep_escChar c (jsonEscape cs ++ quoteChar :: X)]
        simp only [ih f (by simp at hf; omega)]

theorem length_le_jsonEscape (u : List Char) : u.length ≤ (jsonEscape u).length := by
  induction u with
  | nil => simp [jsonEscape]
  | cons c cs ih =>
      have h1 : 1 ≤ (escChar c).length := by
        rcases he : escChar c with _ | _
        · exact absurd he (escChar_ne_nil c)
        · simp
      simp only [jsonEscape, List.flatMap_cons, List.length_append, List.length_cons]
      simp only [jsonEscape] at ih
      omega

/-- String scanning inverts escaping. -/
theorem parseJStr_escape (u : List Char) (X : List Char) :
    parseJStr (jsonEscape u ++ quoteChar :: X) = some (u, X) := by
  unfold parseJStr
  apply parseJStrF_escape
  have := length_le_jsonEscape u
  simp only [List.length_append, List.length_cons]
  omega

theorem isJsonWs_quote : isJsonWs quoteChar = false := by decide

theorem isJsonWs_lbrace : isJsonWs lbraceChar = false := by decide

theorem isJsonWs_colon : isJsonWs ':' = false := by decide

theorem isJsonWs_comma : isJsonWs ',' = false := by decide

theorem isJsonWs_rbrace : isJsonWs rbraceChar = false := by decide

/-- A quoted escaped string parses as a JSON string value. -/
theorem parseJValue_str (n : Nat) (u X : List Char) :
    parseJValue (n + 1) (quoteChar :: (jsonEscape u ++ quoteChar :: X))
      = some (.jstr u, X) := by
  simp only [parseJValue]
  rw [skipWs_cons quoteChar _ isJsonWs_quote]
  simp only [parseJStr_escape u X, if_pos rfl]
  rw [if_pos trivial]

/-- A final `"key":"value"` member followed by the closing brace parses as a
one-member tail. -/
theorem parseJMembers_last (n : Nat) (k v X : List Char) :
    parseJMembers (n + 2)
      (quoteChar :: (jsonEscape k ++ quoteChar :: ':' :: quoteChar ::
        (jsonEscape v ++ quoteChar :: rbraceChar :: X)))
      = some ([(k, .jstr v)], X) := by
  rw [show n + 2 = (n + 1) + 1 from rfl]
  simp only [parseJMembers]
  rw [skipWs_cons quoteChar _ isJsonWs_quote]
  rw [show jsonEscape k ++ quoteChar :: ':' :: quoteChar ::
      (jsonEscape v ++ quoteChar :: rbraceChar :: X)
    = jsonEscape k ++ quoteChar :: (':' :: quoteChar ::
      (jsonEscape v ++ quoteChar :: rbraceChar :: X)) from rfl]
  simp only [parseJStr_escape, if_pos rfl]
  rw [skipWs_cons ':' _ isJsonWs_colon]
  simp only [if_pos rfl, if_true]
  simp only [parseJValue_str n v (rbraceChar :: X)]
  rw [skipWs_cons rbraceChar _ isJsonWs_rbrace]
  simp only [if_neg (show ¬ rbraceChar = ',' by decide), if_pos rfl, if_true]

/-- Two `"key":"value"` members followed by the closing brace parse as a
two-member tail. -/
theorem parseJMembers_two (n : Nat) (k1 v1 k2 v2 X : List Char) :
    parseJMembers (n + 3)
      (quoteChar :: (jsonEscape k1 ++ quoteChar :: ':' :: quoteChar ::
        (jsonEscape v1 ++ quoteChar :: ',' :: quoteChar ::
        (jsonEscape k2 ++ quoteChar :: ':' :: quoteChar ::
        (jsonEscape v2 ++ quoteChar :: rbraceChar :: X)))))
      = some ([(k1, .jstr v1), (k2, .jstr v2)], X) := by
  rw [show n + 3 = (n + 2) + 1 from rfl]
  simp only [parseJMembers]
  rw [skipWs_cons quoteChar _ isJsonWs_quote]
  rw [show jsonEscape k1 ++ quoteChar :: ':' :: quoteChar ::
      (jsonEscape v1 ++ quoteChar :: ',' :: quoteChar ::
        (jsonEscape k2 ++ quoteChar :: ':' :: quoteChar ::
        (jsonEscape v2 ++ quoteChar :: rbraceChar :: X)))
    = jsonEscape k1 ++ quoteChar :: (':' :: quoteChar ::
      (jsonEscape v1 ++ quoteChar :: ',' :: quoteChar ::
        (jsonEscape k2 ++ quoteChar :: ':' :: quoteChar ::
        (jsonEscape v2 ++ quoteChar :: rbraceChar :: X)))) from rfl]
  simp only [parseJStr_escape, if_pos rfl]
  rw [skipWs_cons ':' _ isJsonWs_colon]
  simp only [if_pos rfl, if_true]
  simp only [parseJValue_str (n + 1) v1]
  rw [skipWs_cons ',' _ isJsonWs_comma]
  simp only [if_pos rfl, if_true]
  rw [skipWs_cons quoteChar _ isJsonWs_quote]
  simp only [if_pos rfl, parseJStr_escape]
  rw [skipWs_cons ':' _ isJsonWs_colon]
  simp only [if_pos rfl, if_true, parseJValue_str n v2]
  rw [skipWs_cons rbraceChar _ isJsonWs_rbrace]
  simp only [if_neg (show ¬ rbraceChar = ',' by decide), if_pos rfl, if_true]

/-- The composite-cursor JSON text parses back to the object it was
rendered from. -/
theorem parseJValue_stringifyComposite (n : Nat) (u : List Char) (t : IsoDate) :
    parseJValue (n + 4) (stringifyComposite u t)
      = some (.jobj [("deviceUuid".data, .jstr u),
                     ("time".data, .jstr (toISOString t).data)], []) := by
  have hshape : stringifyComposite u t
      = lbraceChar :: quoteChar :: (jsonEscape "deviceUuid".data
        ++ quoteChar :: ':' :: quoteChar :: (jsonEscape u
        ++ quoteChar :: ',' :: quoteChar :: (jsonEscape "time".data
        ++ quoteChar :: ':' :: quoteChar :: (jsonEscape (toISOString t).data
        ++ quoteChar :: rbraceChar :: [])))) := by
    simp [stringifyComposite]
  rw [hshape, show n + 4 = (n + 3) + 1 from rfl]
  simp only [parseJValue]
  rw [skipWs_cons lbraceChar _ isJsonWs_lbrace]
  simp only [if_neg (show ¬ lbraceChar = quoteChar by decide), if_pos rfl]
  rw [skipWs_cons quoteChar _ isJsonWs_quote]
  simp only [if_neg (show ¬ quoteChar = rbraceChar by decide)]
  simp only [parseJMembers_two n "deviceUuid".data u "time".data
    (toISOString t).data []]
  rw [if_pos trivial]

/-- `JSON.parse` inverts the composite-cursor `JSON.stringify` text. -/
theorem jsonParse_stringifyComposite (u : List Char) (t : IsoDate) :
    jsonParse ⟨stringifyComposite u t⟩
      = some (.jobj [("deviceUuid".data, .jstr u),
                     ("time".data, .jstr (toISOString t).data)]) := by
  unfold jsonParse
  have hd : (String.mk (stringifyComposite u t)).data = stringifyComposite u t := rfl
  rw [hd]
  have hlen : 2 ≤ (stringifyComposite u t).length := by
    simp [stringifyComposite]
  rw [show (stringifyComposite u t).length + 2
      = ((stringifyComposite u t).length - 2) + 4 by omega]
  rw [parseJValue_stringifyComposite ((stringifyComposite u t).length - 2) u t]
  simp [skipWs]

/-! ### Cursor codec

Embedding of src/business-logic/utils/cursor.ts.  The Effect wrappers are
modeled by `Except`: `Effect.succeed` is `Except.ok`, `Effect.fail` and a
caught throw inside `Effect.try` are `Except.error`. -/

/-- A typed cursor error, from `cursorError(message, cause)` in
src/errors.ts.  The cause is an arbitrary JavaScript value used only for
logging and is not modeled. -/
structure CursorError where
  message : String
deriving DecidableEq, Repr

/-- Constructor for `CursorError`. -/
def cursorError (message : String) : CursorError := ⟨message⟩

/-- `encodeCursor`: base64 of the UTF-8 bytes of the identifier. -/
def encodeCursor (id : String) : String :=
  ⟨base64Encode (jsBufferFromUtf8 id)⟩

/-- `decodeCursor`: reject undefined or empty input, test the base64
shape, decode leniently, reject when the lenient UTF-8 decoding produced
U+FFFD. -/
def decodeCursor (cursor : Option String) : Except CursorError String :=
  match cursor with
  | none => .error (cursorError "Cursor is required")
  | some c =>
    if c = "" then .error (cursorError "Cursor is required")
    else if b64Format c then
      let decoded := jsUtf8ToString (b64DecodeJs c.data)
      if decoded.contains replacementChar
      then .error (cursorError ("Failed to decode cursor: " ++ c))
      else .ok ⟨decoded⟩
    else .error (cursorError ("Failed to decode cursor: " ++ c))

/-- `decodeCursorWithFallback`: swallow the decode failure and substitute
the fallback. -/
def decodeCursorWithFallback (cursor : Option String) (fallback : String) : String :=
  match decodeCursor cursor with
  | .ok s => s
  | .error _ => fallback

/-- `encodeCompositeCursor`: base64 of the UTF-8 bytes of the JSON
rendering of `{ deviceUuid, time: time.toISOString() }`. -/
def encodeCompositeCursor (deviceUuid : String) (time : IsoDate) : String :=
  ⟨base64Encode ((stringifyComposite deviceUuid.data time).flatMap utf8EncodeChar)⟩

/-- A JavaScript Date value as produced by `new Date(v)` on a decoded JSON
field: an Invalid Date, a date parsed from an ISO string (kept as its
components), or a date built from a numeric epoch value (kept symbolic). -/
inductive JsDate where
  | invalid
  | fromComponents (c : IsoDate)
  | fromEpochMs (ms : ℚ)

/-- Model of `new Date(v)` for a JSON field value.  String fields parse (a
non-timestamp string gives an Invalid Date, not an error); numeric fields
denote epoch milliseconds when within the representable Date range;
booleans coerce to 0/1 milliseconds; object and array coercions are not
modeled and give an Invalid Date. -/
def jsNewDate (v : JValue) : JsDate :=
  match v with
  | .jstr s =>
      match jsDateParse ⟨s⟩ with
      | some c => .fromComponents c
      | none => .invalid
  | .jnum q => if |q| ≤ (8640000000000000 : ℚ) then .fromEpochMs q else .invalid
  | .jbool b => .fromEpochMs (if b then 1 else 0)
  | _ => .invalid

/-- First value bound to a key in an association list. -/
def jsObjLookup (key : List Char) : List (List Char × JValue) → Option JValue
  | [] => none
  | (k, v) :: rest => if k = key then some v else jsObjLookup key rest

/-- Property access `parsed.key` on a decoded JSON value: a lookup on an
object (later duplicate keys win, as in `JSON.parse`, hence the reversal),
undefined otherwise. -/
def jsObjField (v : JValue) (key : List Char) : Option JValue :=
  match v with
  | .jobj fields => jsObjLookup key fields.reverse
  | _ => none

/-- JavaScript truthiness of a possibly-undefined JSON field value.  NaN
cannot arise in the rational model. -/
def jsTruthyJ (v : Option JValue) : Bool :=
  match v with
  | none => false
  | some .jnull => false
  | some (.jbool b) => b
  | some (.jnum q) => q ≠ 0
  | some (.jstr s) => s ≠ []
  | some (.jarr _) => true
  | some (.jobj _) => true

/-- The value `{ deviceUuid, time: new Date(parsed.time) }` returned
by a successful composite decode.  The fields hold whatever JSON values the
payload carried; the TypeScript annotation claims strings but performs no
runtime check. -/
structure CompositeCursorData where
  deviceUuid : JValue
  time : JsDate

/-- `decodeCompositeCursor`: test the base64 shape, decode, `JSON.parse`,
require truthy `deviceUuid` and `time` fields, and build the result with
`new Date(parsed.time)`.  No validation that the time parsed successfully
is performed. -/
def decodeCompositeCursor (cursor : String) :
    Except CursorError CompositeCursorData :=
  if b64Format cursor then
    match jsonParse ⟨jsUtf8ToString (b64DecodeJs cursor.data)⟩ with
    | none => .error (cursorError ("Failed to decode composite cursor: " ++ cursor))
    | some parsed =>
      match jsObjField parsed "deviceUuid".data, jsObjField parsed "time".data with
      | some du, some tm =>
          if jsTruthyJ (some du) && jsTruthyJ (some tm)
          then .ok ⟨du, jsNewDate tm⟩
          else .error (cursorError ("Failed to decode composite cursor: " ++ cursor))
      | _, _ => .error (cursorError ("Failed to decode composite cursor: " ++ cursor))
  else .error (cursorError ("Failed to decode composite cursor: " ++ cursor))

theorem utf8Flat_lt (cs : List Char) :
    ∀ b ∈ cs.flatMap utf8EncodeChar, b < 256 := by
  intro b hb
  obtain ⟨c, _, hc⟩ := List.mem_flatMap.mp hb
  exact utf8EncodeChar_lt c b hc

theorem jsUtf8ToString_flat (cs : List Char) :
    jsUtf8ToString (cs.flatMap utf8EncodeChar) = cs := by
  induction cs with
  | nil => rfl
  | cons c cs ih =>
      rw [List.flatMap_cons, jsUtf8ToString_encodeChar c (cs.flatMap utf8EncodeChar), ih]

theorem string_mk_data (s : String) : String.mk s.data = s := rfl

theorem data_ne_nil_of_ne_empty (s : String) (h : s ≠ "") : s.data ≠ [] := by
  intro hd
  apply h
  have hs : s = String.mk s.data := rfl
  rw [hs, hd]

theorem b64EncodeVals_ne_nil (bs : List Nat) (h : bs ≠ []) :
    b64EncodeVals bs ≠ [] := by
  rcases bs with _ | ⟨a, _ | ⟨b, _ | ⟨c, rest⟩⟩⟩
  · exact absurd rfl h
  · simp [b64EncodeVals]
  · simp [b64EncodeVals]
  · simp [b64EncodeVals]

theorem base64Encode_ne_nil (bs : List Nat) (h : bs ≠ []) :
    base64Encode bs ≠ [] := by
  unfold base64Encode
  intro he
  rcases List.append_eq_nil.mp he with ⟨h1, _⟩
  exact b64EncodeVals_ne_nil bs h (List.map_eq_nil.mp h1)

theorem flatMap_utf8_ne_nil (cs : List Char) (h : cs ≠ []) :
    cs.flatMap utf8EncodeChar ≠ [] := by
  rcases cs with _ | ⟨c, rest⟩
  · exact absurd rfl h
  · rw [List.flatMap_cons]
    intro he
    rcases List.append_eq_nil.mp he with ⟨h1, _⟩
    exact utf8EncodeChar_ne_nil c h1

theorem mk_ne_empty (l : List Char) (h : l ≠ []) : (String.mk l) ≠ "" := by
  intro he
  exact h (by simpa using congrArg String.data he)

/-- Round-trip of the simple cursor codec on identifiers that are nonempty
and free of U+FFFD. -/
theorem decodeCursor_encodeCursor (id : String) (hid : id ≠ "")
    (hrepl : id.data.contains replacementChar = false) :
    decodeCursor (some (encodeCursor id)) = .ok id := by
  have hbytes := jsBufferFromUtf8_lt id
  have hne : encodeCursor id ≠ "" := by
    unfold encodeCursor
    apply mk_ne_empty
    apply base64Encode_ne_nil
    exact flatMap_utf8_ne_nil id.data (data_ne_nil_of_ne_empty id hid)
  have hfmt : b64Format (encodeCursor id) = true := by
    unfold encodeCursor
    exact b64Format_base64Encode (jsBufferFromUtf8 id) hbytes
  have hdata : (encodeCursor id).data = base64Encode (jsBufferFromUtf8 id) := rfl
  simp only [decodeCursor]
  rw [if_neg hne, if_pos hfmt, hdata,
    b64DecodeJs_base64Encode (jsBufferFromUtf8 id) hbytes,
    jsUtf8ToString_jsBufferFromUtf8 id, hrepl]
  rw [if_neg (by simp)]

/-- Round-trip of the composite cursor codec on nonempty device ids and
well-formed times. -/
theorem decodeCompositeCursor_encodeCompositeCursor (deviceUuid : String)
    (t : IsoDate) (hdu : deviceUuid ≠ "") (ht : t.wf) :
    decodeCompositeCursor (encodeCompositeCursor deviceUuid t)
      = .ok ⟨.jstr deviceUuid.data, .fromComponents t⟩ := by
  have hbytes := utf8Flat_lt (stringifyComposite deviceUuid.data t)
  have hfmt : b64Format (encodeCompositeCursor deviceUuid t) = true := by
    unfold encodeCompositeCursor
    exact b64Format_base64Encode _ hbytes
  have hdata : (encodeCompositeCursor deviceUuid t).data
      = base64Encode ((stringifyComposite deviceUuid.data t).flatMap utf8EncodeChar)
      := rfl
  unfold decodeCompositeCursor
  rw [if_pos hfmt, hdata, b64DecodeJs_base64Encode _ hbytes,
    jsUtf8ToString_flat (stringifyComposite deviceUuid.data t),
    jsonParse_stringifyComposite deviceUuid.data t]
  have hdev : jsObjField
      (.jobj [("deviceUuid".data, .jstr deviceUuid.data),
              ("time".data, .jstr (toISOString t).data)]) "deviceUuid".data
      = some (.jstr deviceUuid.data) := by
    unfold jsObjField
    simp only [List.reverse_cons, List.reverse_nil, List.nil_append,
      List.cons_append, jsObjLookup]
    simp
  have htime : jsObjField
      (.jobj [("deviceUuid".data, .jstr deviceUuid.data),
              ("time".data, .jstr (toISOString t).data)]) "time".data
      = some (.jstr (toISOString t).data) := by
    unfold jsObjField
    simp only [List.reverse_cons, List.reverse_nil, List.nil_append,
      List.cons_append, jsObjLookup]
    simp
  have htruthy1 : jsTruthyJ (some (.jstr deviceUuid.data)) = true := by
    simp [jsTruthyJ, data_ne_nil_of_ne_empty deviceUuid hdu]
  have htruthy2 : jsTruthyJ (some (.jstr (toISOString t).data)) = true := by
    have hne : (toISOString t).data ≠ [] := by
      simp [toISOString, pad4]
    simp [jsTruthyJ, hne]
  have hnd : jsNewDate (.jstr (toISOString t).data) = .fromComponents t := by
    simp only [jsNewDate, string_mk_data, jsDateParse_toISOString t ht]
  simp only [hdev, htime, htruthy1, htruthy2, Bool.and_self]
  rw [if_pos trivial, hnd]

/-! ### Claims C6 and C7 -/

set_option maxRecDepth 100000 in
/-- C6 (corrected, counterexample): the round-trip law fails as universally
stated.  An empty identifier encodes to the empty cursor, which
`decodeCursor` rejects as missing; an identifier consisting of U+FFFD
encodes fine but its decoding is rejected by the replacement-character
check; and a composite cursor for an empty device id is rejected because
the empty string is falsy. -/
theorem claim_C6_counterexample :
    decodeCursor (some (encodeCursor "")) = .error (cursorError "Cursor is required")
    ∧ decodeCursor (some (encodeCursor ⟨[replacementChar]⟩))
        = .error (cursorError "Failed to decode cursor: 77+9")
    ∧ decodeCompositeCursor (encodeCompositeCursor "" ⟨1970, 1, 1, 0, 0, 0, 0⟩)
        = .error (cursorError ("Failed to decode composite cursor: "
            ++ encodeCompositeCursor "" ⟨1970, 1, 1, 0, 0, 0, 0⟩)) := by
  refine ⟨rfl, rfl, rfl⟩

/-- C6 (corrected, amended): decodeCursor inverts encodeCursor on every
identifier that is nonempty and contains no U+FFFD, and
decodeCompositeCursor inverts encodeCompositeCursor on every nonempty
device id and well-formed time, returning the same device id and an equal
time. -/
theorem claim_C6 (id deviceUuid : String) (t : IsoDate) (hid : id ≠ "")
    (hrepl : id.data.contains replacementChar = false) (hdu : deviceUuid ≠ "")
    (ht : t.wf) :
    decodeCursor (some (encodeCursor id)) = .ok id
    ∧ decodeCompositeCursor (encodeCompositeCursor deviceUuid t)
        = .ok ⟨.jstr deviceUuid.data, .fromComponents t⟩ :=
  ⟨decodeCursor_encodeCursor id hid hrepl,
   decodeCompositeCursor_encodeCompositeCursor deviceUuid t hdu ht⟩

/-- C6 witness: the amended round-trip at a concrete identifier and a
concrete composite pair. -/
theorem claim_C6_witness :
    decodeCursor (some (encodeCursor "abc-123")) = .ok "abc-123"
    ∧ decodeCompositeCursor (encodeCompositeCursor "d1" ⟨2024, 5, 17, 12, 30, 45, 123⟩)
        = .ok ⟨.jstr "d1".data, .fromComponents ⟨2024, 5, 17, 12, 30, 45, 123⟩⟩ :=
  claim_C6 "abc-123" "d1" ⟨2024, 5, 17, 12, 30, 45, 123⟩ (by decide) (by decide)
    (by decide) (by decide)

set_option maxRecDepth 100000 in
/-- C7 (corrected, counterexample): a well-formed base64 cursor whose JSON
payload carries a non-timestamp `time` string decodes successfully to an
Invalid Date value instead of yielding a typed cursor error.  The input is
the base64 text of `{"deviceUuid":"d","time":"x"}`. -/
theorem claim_C7_counterexample :
    decodeCompositeCursor "eyJkZXZpY2VVdWlkIjoiZCIsInRpbWUiOiJ4In0="
      = .ok ⟨.jstr ['d'], .invalid⟩ := by
  rfl

/-- C7 (corrected, amended): both decoders are total functions into
`Except CursorError`; an input that fails the base64 shape test yields the
typed error naming it in both decoders, and a base64-shaped input whose
decoded bytes fail to parse as JSON yields the typed composite error.  The
rejection of unparseable `time` strings claimed by the specification does
not hold (see the counterexample). -/
theorem claim_C7 :
    (∀ s : String, b64Format s = false →
      decodeCursor (some s)
          = .error (cursorError ("Failed to decode cursor: " ++ s))
        ∧ decodeCompositeCursor s
          = .error (cursorError ("Failed to decode composite cursor: " ++ s)))
    ∧ ∀ s : String, b64Format s = true →
        jsonParse ⟨jsUtf8ToString (b64DecodeJs s.data)⟩ = none →
        decodeCompositeCursor s
          = .error (cursorError ("Failed to decode composite cursor: " ++ s)) := by
  constructor
  · intro s hf
    have hne : s ≠ "" := by
      intro he
      rw [he] at hf
      exact absurd hf (by decide)
    constructor
    · simp only [decodeCursor]
      rw [if_neg hne, if_neg (by simp [hf])]
    · unfold decodeCompositeCursor
      rw [if_neg (by simp [hf])]
  · intro s hf hj
    unfold decodeCompositeCursor
    rw [if_pos hf, hj]

set_option maxRecDepth 100000 in
/-- C7 witness: the amended statement at a non-base64 input and at a
base64 input whose bytes are not JSON. -/
theorem claim_C7_witness :
    (decodeCursor (some "!!!")
        = .error (cursorError ("Failed to decode cursor: " ++ "!!!"))
      ∧ decodeCompositeCursor "!!!"
        = .error (cursorError ("Failed to decode composite cursor: " ++ "!!!")))
    ∧ decodeCompositeCursor "AAAA"
        = .error (cursorError ("Failed to decode composite cursor: " ++ "AAAA")) :=
  ⟨claim_C7.1 "!!!" (by decide), claim_C7.2 "AAAA" (by decide) rfl⟩

/-! ### SenML normalizer

Embedding of src/business-logic/mappers/senml.ts.  JavaScript Dates used
only for arithmetic and comparison here are embedded as epoch
milliseconds (`Int`, exact arithmetic); metric values are exact rationals.
The unused `bn`, `bver` and `u` fields of the wire record are omitted. -/

/-- A sparse SenML measurement record: optional base epoch seconds,
metric name, optional numeric / string / boolean value, optional offset
seconds. -/
structure SenMLRecord where
  bt : Option Int
  n : String
  v : Option ℚ
  vs : Option String
  vb : Option Bool
  t : Option Int
deriving DecidableEq, Repr

/-- Device header of a telemetry payload. -/
structure DeviceInfo where
  uuid : String
  fw_ver : Option String
  model : Option String
deriving DecidableEq, Repr

/-- An MQTT telemetry payload. -/
structure TelemetryPayload where
  device_info : DeviceInfo
  measures : List SenMLRecord
deriving DecidableEq, Repr

/-- The wide telemetry row draft produced by the normalizer. -/
structure NewTelemetryPoint where
  time : Int
  deviceUuid : String
  fwVer : Option String
  model : Option String
  ingestedAt : Int
  temp : Option ℚ
  hum : Option ℚ
  pres : Option ℚ
  pm1 : Option ℚ
  pm25 : Option ℚ
  pm10 : Option ℚ
  no : Option ℚ
  no2 : Option ℚ
  o3 : Option ℚ
  so2 : Option ℚ
  co : Option ℚ
  h2s : Option ℚ
  nh3 : Option ℚ
  co2 : Option ℚ
  voc : Option ℚ
  noise : Option ℚ
  solarRad : Option ℚ
  rainRate : Option ℚ
  windDir : Option ℚ
  windSpd : Option ℚ
  lux : Option ℚ
  extras : List (String × ℚ)
deriving DecidableEq, Repr

/-- Model of `parseFloat`: skip leading whitespace, read an optional sign
and the longest numeric prefix (digits, optional fraction, optional
exponent); no digits at all is NaN (`none`).  The `Infinity` spellings
accepted by the engine are outside the behaviors verified here. -/
def jsParseFloat (s : String) : Option ℚ :=
  let cs := s.data.dropWhile isJsonWs
  let signAndRest : Bool × List Char :=
    match cs with
    | c :: r => if c = '-' then (true, r) else if c = '+' then (false, r) else (false, cs)
    | [] => (false, [])
  let (ids, cs2) := takeDigits signAndRest.2
  let fracAndRest : List Char × List Char :=
    match cs2 with
    | c :: r => if c = '.' then takeDigits r else ([], cs2)
    | [] => ([], [])
  if ids.isEmpty && fracAndRest.1.isEmpty then none
  else
    let mantissa : ℚ :=
      (digitsVal ids : ℚ) + (digitsVal fracAndRest.1 : ℚ) / (10 : ℚ) ^ fracAndRest.1.length
    let e : Int :=
      match fracAndRest.2 with
      | c :: r =>
          if c = 'e' ∨ c = 'E' then
            match r with
            | sChar :: r2 =>
                if sChar = '+' then
                  (if (takeDigits r2).1.isEmpty then 0 else ((digitsVal (takeDigits r2).1 : Int)))
                else if sChar = '-' then
                  (if (takeDigits r2).1.isEmpty then 0 else -((digitsVal (takeDigits r2).1 : Int)))
                else
                  (if (takeDigits r).1.isEmpty then 0 else ((digitsVal (takeDigits r).1 : Int)))
            | [] => 0
          else 0
      | [] => 0
    some ((if signAndRest.1 then -mantissa else mantissa) * (10 : ℚ) ^ e)

/-- Value coercion of one measurement (senml.ts lines 119 to 127): a
present numeric value is used as-is (0 included); else a present string
value is parsed, with parse failure giving null; else a present boolean
gives 1 or 0; else null. -/
def coerceValue (m : SenMLRecord) : Option ℚ :=
  match m.v with
  | some x => some x
  | none =>
    match m.vs with
    | some s => jsParseFloat s
    | none =>
      match m.vb with
      | some b => some (if b then 1 else 0)
      | none => none

/-- Base timestamp resolution: the first measurement declares a truthy
(nonzero) base time, else the ingestion wall-clock time is used.  This
mirrors the JavaScript truthiness test `measures[0]?.bt ? ... : ...`. -/
def baseTimeMs (measures : List SenMLRecord) (ingestionTime : Int) : Int :=
  match measures.head? with
  | some m =>
      match m.bt with
      | some b => if b ≠ 0 then b * 1000 else ingestionTime
      | none => ingestionTime
  | none => ingestionTime

/-- Absolute time of one measurement: base plus offset when an offset is
present, else the base. -/
def absTimeMs (base : Int) (m : SenMLRecord) : Int :=
  match m.t with
  | some t0 => base + t0 * 1000
  | none => base

/-- Assignment `point.extras[name] = value` on the extras object. -/
def jsObjSet (l : List (String × ℚ)) (k : String) (q : ℚ) : List (String × ℚ) :=
  if l.any (fun kv => kv.1 = k) then l.map (fun kv => if kv.1 = k then (k, q) else kv)
  else l ++ [(k, q)]

/-- The switch over measurement names: a recognized name writes the fixed
column, an unrecognized name writes the extras object only when the value
is not null. -/
def setMetric (p : NewTelemetryPoint) (name : String) (value : Option ℚ) :
    NewTelemetryPoint :=
  if name = "temp" then { p with temp := value }
  else if name = "hum" then { p with hum := value }
  else if name = "pres" then { p with pres := value }
  else if name = "pm1" then { p with pm1 := value }
  else if name = "pm25" then { p with pm25 := value }
  else if name = "pm10" then { p with pm10 := value }
  else if name = "no" then { p with no := value }
  else if name = "no2" then { p with no2 := value }
  else if name = "o3" then { p with o3 := value }
  else if name = "so2" then { p with so2 := value }
  else if name = "co" then { p with co := value }
  else if name = "h2s" then { p with h2s := value }
  else if name = "nh3" then { p with nh3 := value }
  else if name = "co2" then { p with co2 := value }
  else if name = "voc" then { p with voc := value }
  else if name = "noise" then { p with noise := value }
  else if name = "solar_rad" then { p with solarRad := value }
  else if name = "rain_rate" then { p with rainRate := value }
  else if name = "wind_dir" then { p with windDir := value }
  else if name = "wind_spd" then { p with windSpd := value }
  else if name = "lux" then { p with lux := value }
  else
    match value with
    | some q => { p with extras := jsObjSet p.extras name q }
    | none => p

/-- Fixed column of a metric name (none for unrecognized names). -/
def getMetric (p : NewTelemetryPoint) (name : String) : Option ℚ :=
  if name = "temp" then p.temp
  else if name = "hum" then p.hum
  else if name = "pres" then p.pres
  else if name = "pm1" then p.pm1
  else if name = "pm25" then p.pm25
  else if name = "pm10" then p.pm10
  else if name = "no" then p.no
  else if name = "no2" then p.no2
  else if name = "o3" then p.o3
  else if name = "so2" then p.so2
  else if name = "co" then p.co
  else if name = "h2s" then p.h2s
  else if name = "nh3" then p.nh3
  else if name = "co2" then p.co2
  else if name = "voc" then p.voc
  else if name = "noise" then p.noise
  else if name = "solar_rad" then p.solarRad
  else if name = "rain_rate" then p.rainRate
  else if name = "wind_dir" then p.windDir
  else if name = "wind_spd" then p.windSpd
  else if name = "lux" then p.lux
  else none

/-- The draft initialized before the measurement loop. -/
def initPoint (di : DeviceInfo) (base ingestionTime : Int) : NewTelemetryPoint where
  time := base
  deviceUuid := di.uuid
  fwVer := di.fw_ver
  model := di.model
  ingestedAt := ingestionTime
  temp := none
  hum := none
  pres := none
  pm1 := none
  pm25 := none
  pm10 := none
  no := none
  no2 := none
  o3 := none
  so2 := none
  co := none
  h2s := none
  nh3 := none
  co2 := none
  voc := none
  noise := none
  solarRad := none
  rainRate := none
  windDir := none
  windSpd := none
  lux := none
  extras := []

/-- One iteration of the measurement loop: bump the running time when the
measurement is newer, then write its coerced value. -/
def applyMeasure (base : Int) (p : NewTelemetryPoint) (m : SenMLRecord) :
    NewTelemetryPoint :=
  let measureTime := absTimeMs base m
  let p1 := if measureTime > p.time then { p with time := measureTime } else p
  setMetric p1 m.n (coerceValue m)

/-- `senmlToDbNew`: resolve the base timestamp, initialize the draft, and
fold the measurement loop over the list. -/
def senmlToDbNew (payload : TelemetryPayload) (ingestionTime : Int) :
    NewTelemetryPoint :=
  payload.measures.foldl (applyMeasure (baseTimeMs payload.measures ingestionTime))
    (initPoint payload.device_info (baseTimeMs payload.measures ingestionTime)
      ingestionTime)

theorem setMetric_time (p : NewTelemetryPoint) (name : String) (v : Option ℚ) :
    (setMetric p name v).time = p.time := by
  unfold setMetric
  by_cases h1 : name = "temp"
  · rw [if_pos h1]
  · rw [if_neg h1]
    by_cases h2 : name = "hum"
    · rw [if_pos h2]
    · rw [if_neg h2]
      by_cases h3 : name = "pres"
      · rw [if_pos h3]
      · rw [if_neg h3]
        by_cases h4 : name = "pm1"
        · rw [if_pos h4]
        · rw [if_neg h4]
          by_cases h5 : name = "pm25"
          · rw [if_pos h5]
          · rw [if_neg h5]
            by_cases h6 : name = "pm10"
            · rw [if_pos h6]
            · rw [if_neg h6]
              by_cases h7 : name = "no"
              · rw [if_pos h7]
              · rw [if_neg h7]
                by_cases h8 : name = "no2"
                · rw [if_pos h8]
                · rw [if_neg h8]
                  by_cases h9 : name = "o3"
                  · rw [if_pos h9]
                  · rw [if_neg h9]
                    by_cases h10 : name = "so2"
                    · rw [if_pos h10]
                    · rw [if_neg h10]
                      by_cases h11 : name = "co"
                      · rw [if_pos h11]
                      · rw [if_neg h11]
                        by_cases h12 : name = "h2s"
                        · rw [if_pos h12]
                        · rw [if_neg h12]
                          by_cases h13 : name = "nh3"
                          · rw [if_pos h13]
                          · rw [if_neg h13]
                            by_cases h14 : name = "co2"
                            · rw [if_pos h14]
                            · rw [if_neg h14]
                              by_cases h15 : name = "voc"
                              · rw [if_pos h15]
                              · rw [if_neg h15]
                                by_cases h16 : name = "noise"
                                · rw [if_pos h16]
                                · rw [if_neg h16]
                                  by_cases h17 : name = "solar_rad"
                                  · rw [if_pos h17]
                                  · rw [if_neg h17]
                                    by_cases h18 : name = "rain_rate"
                                    · rw [if_pos h18]
                                    · rw [if_neg h18]
                                      by_cases h19 : name = "wind_dir"
                                      · rw [if_pos h19]
                                      · rw [if_neg h19]
                                        by_cases h20 : name = "wind_spd"
                                        · rw [if_pos h20]
                                        · rw [if_neg h20]
                                          by_cases h21 : name = "lux"
                                          · rw [if_pos h21]
                                          · rw [if_neg h21]
                                            cases v <;> rfl

theorem getMetric_upd_temp (p : NewTelemetryPoint) (v : Option ℚ) (n2 : String)
    (h : n2 ≠ "temp") : getMetric { p with temp := v } n2 = getMetric p n2 := by
  unfold getMetric
  simp only [if_neg h]

theorem getMetric_upd_hum (p : NewTelemetryPoint) (v : Option ℚ) (n2 : String)
    (h : n2 ≠ "hum") : getMetric { p with hum := v } n2 = getMetric p n2 := by
  unfold getMetric
  simp only [if_neg h]

theorem getMetric_upd_pres (p : NewTelemetryPoint) (v : Option ℚ) (n2 : String)
    (h : n2 ≠ "pres") : getMetric { p with pres := v } n2 = getMetric p n2 := by
  unfold getMetric
  simp only [if_neg h]

theorem getMetric_upd_pm1 (p : NewTelemetryPoint) (v : Option ℚ) (n2 : String)
    (h : n2 ≠ "pm1") : getMetric { p with pm1 := v } n2 = getMetric p n2 := by
  unfold getMetric
  simp only [if_neg h]

theorem getMetric_upd_pm25 (p : NewTelemetryPoint) (v : Option ℚ) (n2 : String)
    (h : n2 ≠ "pm25") : getMetric { p with pm25 := v } n2 = getMetric p n2 := by
  unfold getMetric
  simp only [if_neg h]

theorem getMetric_upd_pm10 (p : NewTelemetryPoint) (v : Option ℚ) (n2 : String)
    (h : n2 ≠ "pm10") : getMetric { p with pm10 := v } n2 = getMetric p n2 := by
  unfold getMetric
  simp only [if_neg h]

theorem getMetric_upd_no (p : NewTelemetryPoint) (v : Option ℚ) (n2 : String)
    (h : n2 ≠ "no") : getMetric { p with no := v } n2 = getMetric p n2 := by
  unfold getMetric
  simp only [if_neg h]

theorem getMetric_upd_no2 (p : NewTelemetryPoint) (v : Option ℚ) (n2 : String)
    (h : n2 ≠ "no2") : getMetric { p with no2 := v } n2 = getMetric p n2 := by
  unfold getMetric
  simp only [if_neg h]

theorem getMetric_upd_o3 (p : NewTelemetryPoint) (v : Option ℚ) (n2 : String)
    (h : n2 ≠ "o3") : getMetric { p with o3 := v } n2 = getMetric p n2 := by
  unfold getMetric
  simp only [if_neg h]

theorem getMetric_upd_so2 (p : NewTelemetryPoint) (v : Option ℚ) (n2 : String)
    (h : n2 ≠ "so2") : getMetric { p with so2 := v } n2 = getMetric p n2 := by
  unfold getMetric
  simp only [if_neg h]

theorem getMetric_upd_co (p : NewTelemetryPoint) (v : Option ℚ) (n2 : String)
    (h : n2 ≠ "co") : getMetric { p with co := v } n2 = getMetric p n2 := by
  unfold getMetric
  simp only [if_neg h]

theorem getMetric_upd_h2s (p : NewTelemetryPoint) (v : Option ℚ) (n2 : String)
    (h : n2 ≠ "h2s") : getMetric { p with h2s := v } n2 = getMetric p n2 := by
  unfold getMetric
  simp only [if_neg h]

theorem getMetric_upd_nh3 (p : NewTelemetryPoint) (v : Option ℚ) (n2 : String)
    (h : n2 ≠ "nh3") : getMetric { p with nh3 := v } n2 = getMetric p n2 := by
  unfold getMetric
  simp only [if_neg h]

theorem getMetric_upd_co2 (p : NewTelemetryPoint) (v : Option ℚ) (n2 : String)
    (h : n2 ≠ "co2") : getMetric { p with co2 := v } n2 = getMetric p n2 := by
  unfold getMetric
  simp only [if_neg h]

theorem getMetric_upd_voc (p : NewTelemetryPoint) (v : Option ℚ) (n2 : String)
    (h : n2 ≠ "voc") : getMetric { p with voc := v } n2 = getMetric p n2 := by
  unfold getMetric
  simp only [if_neg h]

theorem getMetric_upd_noise (p : NewTelemetryPoint) (v : Option ℚ) (n2 : String)
    (h : n2 ≠ "noise") : getMetric { p with noise := v } n2 = getMetric p n2 := by
  unfold getMetric
  simp only [if_neg h]

theorem getMetric_upd_solarRad (p : NewTelemetryPoint) (v : Option ℚ) (n2 : String)
    (h : n2 ≠ "solar_rad") : getMetric { p with solarRad := v } n2 = getMetric p n2 := by
  unfold getMetric
  simp only [if_neg h]

theorem getMetric_upd_rainRate (p : NewTelemetryPoint) (v : Option ℚ) (n2 : String)
    (h : n2 ≠ "rain_rate") : getMetric { p with rainRate := v } n2 = getMetric p n2 := by
  unfold getMetric
  simp only [if_neg h]

theorem getMetric_upd_windDir (p : NewTelemetryPoint) (v : Option ℚ) (n2 : String)
    (h : n2 ≠ "wind_dir") : getMetric { p with windDir := v } n2 = getMetric p n2 := by
  unfold getMetric
  simp only [if_neg h]

theorem getMetric_upd_windSpd (p : NewTelemetryPoint) (v : Option ℚ) (n2 : String)
    (h : n2 ≠ "wind_spd") : getMetric { p with windSpd := v } n2 = getMetric p n2 := by
  unfold getMetric
  simp only [if_neg h]

theorem getMetric_upd_lux (p : NewTelemetryPoint) (v : Option ℚ) (n2 : String)
    (h : n2 ≠ "lux") : getMetric { p with lux := v } n2 = getMetric p n2 := by
  unfold getMetric
  simp only [if_neg h]

theorem getMetric_upd_extras (p : NewTelemetryPoint) (l : List (String × ℚ))
    (n2 : String) : getMetric { p with extras := l } n2 = getMetric p n2 := by
  rfl

theorem getMetric_setMetric_ne (p : NewTelemetryPoint) (name : String)
    (v : Option ℚ) (n2 : String) (h : n2 ≠ name) :
    getMetric (setMetric p name v) n2 = getMetric p n2 := by
  unfold setMetric
  by_cases h1 : name = "temp"
  · rw [if_pos h1]
    exact getMetric_upd_temp p v n2 (fun hc => h (hc.trans h1.symm))
  · rw [if_neg h1]
    by_cases h2 : name = "hum"
    · rw [if_pos h2]
      exact getMetric_upd_hum p v n2 (fun hc => h (hc.trans h2.symm))
    · rw [if_neg h2]
      by_cases h3 : name = "pres"
      · rw [if_pos h3]
        exact getMetric_upd_pres p v n2 (fun hc => h (hc.trans h3.symm))
      · rw [if_neg h3]
        by_cases h4 : name = "pm1"
        · rw [if_pos h4]
          exact getMetric_upd_pm1 p v n2 (fun hc => h (hc.trans h4.symm))
        · rw [if_neg h4]
          by_cases h5 : name = "pm25"
          · rw [if_pos h5]
            exact getMetric_upd_pm25 p v n2 (fun hc => h (hc.trans h5.symm))
          · rw [if_neg h5]
            by_cases h6 : name = "pm10"
            · rw [if_pos h6]
              exact getMetric_upd_pm10 p v n2 (fun hc => h (hc.trans h6.symm))
            · rw [if_neg h6]
              by_cases h7 : name = "no"
              · rw [if_pos h7]
                exact getMetric_upd_no p v n2 (fun hc => h (hc.trans h7.symm))
              · rw [if_neg h7]
                by_cases h8 : name = "no2"
                · rw [if_pos h8]
                  exact getMetric_upd_no2 p v n2 (fun hc => h (hc.trans h8.symm))
                · rw [if_neg h8]
                  by_cases h9 : name = "o3"
                  · rw [if_pos h9]
                    exact getMetric_upd_o3 p v n2 (fun hc => h (hc.trans h9.symm))
                  · rw [if_neg h9]
                    by_cases h10 : name = "so2"
                    · rw [if_pos h10]
                      exact getMetric_upd_so2 p v n2 (fun hc => h (hc.trans h10.symm))
                    · rw [if_neg h10]
                      by_cases h11 : name = "co"
                      · rw [if_pos h11]
                        exact getMetric_upd_co p v n2 (fun hc => h (hc.trans h11.symm))
                      · rw [if_neg h11]
                        by_cases h12 : name = "h2s"
                        · rw [if_pos h12]
                          exact getMetric_upd_h2s p v n2 (fun hc => h (hc.trans h12.symm))
                        · rw [if_neg h12]
                          by_cases h13 : name = "nh3"
                          · rw [if_pos h13]
                            exact getMetric_upd_nh3 p v n2 (fun hc => h (hc.trans h13.symm))
                          · rw [if_neg h13]
                            by_cases h14 : name = "co2"
                            · rw [if_pos h14]
                              exact getMetric_upd_co2 p v n2 (fun hc => h (hc.trans h14.symm))
                            · rw [if_neg h14]
                              by_cases h15 : name = "voc"
                              · rw [if_pos h15]
                                exact getMetric_upd_voc p v n2 (fun hc => h (hc.trans h15.symm))
                              · rw [if_neg h15]
                                by_cases h16 : name = "noise"
                                · rw [if_pos h16]
                                  exact getMetric_upd_noise p v n2 (fun hc => h (hc.trans h16.symm))
                                · rw [if_neg h16]
                                  by_cases h17 : name = "solar_rad"
                                  · rw [if_pos h17]
                                    exact getMetric_upd_solarRad p v n2 (fun hc => h (hc.trans h17.symm))
                                  · rw [if_neg h17]
                                    by_cases h18 : name = "rain_rate"
                                    · rw [if_pos h18]
                                      exact getMetric_upd_rainRate p v n2 (fun hc => h (hc.trans h18.symm))
                                    · rw [if_neg h18]
                                      by_cases h19 : name = "wind_dir"
                                      · rw [if_pos h19]
                                        exact getMetric_upd_windDir p v n2 (fun hc => h (hc.trans h19.symm))
                                      · rw [if_neg h19]
                                        by_cases h20 : name = "wind_spd"
                                        · rw [if_pos h20]
                                          exact getMetric_upd_windSpd p v n2 (fun hc => h (hc.trans h20.symm))
                                        · rw [if_neg h20]
                                          by_cases h21 : name = "lux"
                                          · rw [if_pos h21]
                                            exact getMetric_upd_lux p v n2 (fun hc => h (hc.trans h21.symm))
                                          · rw [if_neg h21]
                                            cases v with
                                            | some q => exact getMetric_upd_extras p (jsObjSet p.extras name q) n2
                                            | none => rfl

theorem getMetric_time_update (p : NewTelemetryPoint) (t0 : Int) (n2 : String) :
    getMetric { p with time := t0 } n2 = getMetric p n2 := by
  rfl

theorem getMetric_initPoint (di : DeviceInfo) (b ing : Int) (n2 : String) :
    getMetric (initPoint di b ing) n2 = none := by
  unfold getMetric initPoint
  simp only [ite_self]

theorem applyMeasure_time (base : Int) (p : NewTelemetryPoint) (m : SenMLRecord) :
    (applyMeasure base p m).time = max p.time (absTimeMs base m) := by
  unfold applyMeasure
  rw [setMetric_time]
  by_cases hgt : absTimeMs base m > p.time
  · rw [if_pos hgt]
    exact (max_eq_right (le_of_lt hgt)).symm
  · rw [if_neg hgt]
    exact (max_eq_left (not_lt.mp hgt)).symm

theorem foldl_applyMeasure_time (base : Int) (ms : List SenMLRecord) :
    ∀ p : NewTelemetryPoint,
      (ms.foldl (applyMeasure base) p).time
        = (ms.map (absTimeMs base)).foldl max p.time := by
  induction ms with
  | nil => intro p; rfl
  | cons m ms ih =>
      intro p
      simp only [List.foldl_cons, List.map_cons]
      rw [ih (applyMeasure base p m), applyMeasure_time]

theorem applyMeasure_getMetric_ne (base : Int) (p : NewTelemetryPoint)
    (m : SenMLRecord) (n2 : String) (h : n2 ≠ m.n) :
    getMetric (applyMeasure base p m) n2 = getMetric p n2 := by
  unfold applyMeasure
  rw [getMetric_setMetric_ne _ _ _ _ h]
  by_cases hgt : absTimeMs base m > p.time
  · rw [if_pos hgt, getMetric_time_update]
  · rw [if_neg hgt]

theorem foldl_applyMeasure_getMetric (base : Int) (ms : List SenMLRecord)
    (name : String) (h : ∀ m ∈ ms, m.n ≠ name) :
    ∀ p : NewTelemetryPoint,
      getMetric (ms.foldl (applyMeasure base) p) name = getMetric p name := by
  induction ms with
  | nil => intro p; rfl
  | cons m ms ih =>
      intro p
      simp only [List.foldl_cons]
      rw [ih (fun x hx => h x (by simp [hx])) (applyMeasure base p m),
        applyMeasure_getMetric_ne base p m name (Ne.symm (h m (by simp)))]

/-- C4 counterexample: the claim says a declared base time is always used
and that the draft time equals the maximum absolute time across the
measurements.  Both fail: a declared base time of 0 is falsy, so the
ingestion wall clock (777) is used instead of 0; and with a single
measurement at offset -5 s from base 1000 s the absolute-time list is
[995000] whose maximum is 995000, while the draft keeps time 1000000,
because the running maximum is floored at the base time. -/
theorem claim_C4_counterexample :
    (senmlToDbNew ⟨⟨"d", some "1.0", none⟩,
        [⟨some 0, "temp", some 1, none, none, none⟩]⟩ 777).time = 777
  ∧ (senmlToDbNew ⟨⟨"d", some "1.0", none⟩,
        [⟨some 1000, "temp", some 1, none, none, some (-5)⟩]⟩ 0).time = 1000000
  ∧ [(⟨some 1000, "temp", some 1, none, none, some (-5)⟩ : SenMLRecord)].map
      (absTimeMs (baseTimeMs [⟨some 1000, "temp", some 1, none, none, some (-5)⟩] 0))
      = [995000] :=
  ⟨rfl, rfl, rfl⟩

/-- C4 (amended): the draft time is the fold of max over the measurements
absolute times STARTED AT the base time (so the base is a floor); the base
is the first measurement's base time only when that base time is truthy
(present and nonzero), the ingestion wall clock otherwise; absolute time
is base plus offset times 1000 when an offset is present, else base; and
an empty measurement list yields time equal to ingestion time with every
metric column null. -/
theorem claim_C4 :
    (∀ (payload : TelemetryPayload) (ing : Int),
      (senmlToDbNew payload ing).time
        = (payload.measures.map
            (absTimeMs (baseTimeMs payload.measures ing))).foldl
            max (baseTimeMs payload.measures ing))
  ∧ (∀ (m : SenMLRecord) (ms : List SenMLRecord) (ing b : Int),
      baseTimeMs (⟨some b, m.n, m.v, m.vs, m.vb, m.t⟩ :: ms) ing
        = if b = 0 then ing else b * 1000)
  ∧ (∀ (m : SenMLRecord) (ms : List SenMLRecord) (ing : Int),
      baseTimeMs (⟨none, m.n, m.v, m.vs, m.vb, m.t⟩ :: ms) ing = ing)
  ∧ (∀ (base : Int) (m : SenMLRecord) (t0 : Int),
      absTimeMs base ⟨m.bt, m.n, m.v, m.vs, m.vb, some t0⟩ = base + t0 * 1000)
  ∧ (∀ (base : Int) (m : SenMLRecord),
      absTimeMs base ⟨m.bt, m.n, m.v, m.vs, m.vb, none⟩ = base)
  ∧ (∀ (di : DeviceInfo) (ing : Int),
      (senmlToDbNew ⟨di, []⟩ ing).time = ing
        ∧ ∀ name, getMetric (senmlToDbNew ⟨di, []⟩ ing) name = none) := by
  refine ⟨?_, ?_, ?_, ?_, ?_, ?_⟩
  · intro payload ing
    unfold senmlToDbNew
    rw [foldl_applyMeasure_time]
    rfl
  · intro m ms ing b
    by_cases hb : b = 0 <;> simp [baseTimeMs, hb]
  · intro m ms ing
    rfl
  · intro base m t0
    rfl
  · intro base m
    rfl
  · intro di ing
    exact ⟨rfl, fun name => getMetric_initPoint di _ ing name⟩

/-- C5: value coercion priority; a present numeric value (0 included) is
used as-is; else a present string value goes through float parsing, whose
failure gives null; else booleans map to 1 and 0; else null; and a fixed
metric named by no measurement stays null in the final draft. -/
theorem claim_C5 :
    (∀ (m : SenMLRecord) (x : ℚ), m.v = some x → coerceValue m = some x)
  ∧ (∀ (m : SenMLRecord) (s : String), m.v = none → m.vs = some s →
      coerceValue m = jsParseFloat s)
  ∧ (∀ (m : SenMLRecord), m.v = none → m.vs = none → m.vb = some true →
      coerceValue m = some 1)
  ∧ (∀ (m : SenMLRecord), m.v = none → m.vs = none → m.vb = some false →
      coerceValue m = some 0)
  ∧ (∀ (m : SenMLRecord), m.v = none → m.vs = none → m.vb = none →
      coerceValue m = none)
  ∧ (∀ (payload : TelemetryPayload) (ing : Int) (name : String),
      (∀ m ∈ payload.measures, m.n ≠ name) →
      getMetric (senmlToDbNew payload ing) name = none) := by
  refine ⟨?_, ?_, ?_, ?_, ?_, ?_⟩
  · intro m x hv
    unfold coerceValue
    rw [hv]
  · intro m s hv hvs
    unfold coerceValue
    rw [hv, hvs]
  · intro m hv hvs hvb
    unfold coerceValue
    rw [hv, hvs, hvb]
    rfl
  · intro m hv hvs hvb
    unfold coerceValue
    rw [hv, hvs, hvb]
    rfl
  · intro m hv hvs hvb
    unfold coerceValue
    rw [hv, hvs, hvb]
  · intro payload ing name h
    unfold senmlToDbNew
    exact (foldl_applyMeasure_getMetric _ payload.measures name
      (fun m hm => h m hm) _).trans (getMetric_initPoint _ _ _ _)

/-- C5 witness: the coercion rules evaluated on concrete measurements, and
the hum column of a draft whose only measurement names temp. -/
theorem claim_C5_witness :
    coerceValue ⟨none, "temp", some 0, some "9", some true, none⟩ = some 0
  ∧ coerceValue ⟨none, "temp", none, some "abc", some true, none⟩ = none
  ∧ coerceValue ⟨none, "temp", none, none, some true, none⟩ = some 1
  ∧ coerceValue ⟨none, "temp", none, none, some false, none⟩ = some 0
  ∧ coerceValue ⟨none, "temp", none, none, none, none⟩ = none
  ∧ getMetric (senmlToDbNew ⟨⟨"d", some "1", none⟩,
      [⟨none, "temp", some 1, none, none, none⟩]⟩ 5) "hum" = none :=
  ⟨claim_C5.1 _ 0 rfl,
   (claim_C5.2.1 _ "abc" rfl rfl).trans (by rfl),
   claim_C5.2.2.1 _ rfl rfl rfl,
   claim_C5.2.2.2.1 _ rfl rfl rfl,
   claim_C5.2.2.2.2.1 _ rfl rfl rfl,
   claim_C5.2.2.2.2.2 _ 5 "hum" (by decide)⟩

/-! ### Postgres telemetry query planner

Embedding of the `cursor_id` version of `queryTelemetry` in
src/services/postgres/live/telemetry.ts.  A stored row keeps the columns
the planner reads: the `cursor_id` key (a UUID, modelled as a natural
number with the same total order the SQL comparison gives), the event
`time`, the `ingested_at` stamp and the `device_uuid`.  The planner
filters the time range and optional device, anchors an optional cursor by
an unordered lookup over the whole table, filters relative to the anchor
by `(time, cursor_id)` only, orders by `time`, `ingested_at`, `cursor_id`
(descending time and ingestion for the forward direction), takes `limit`
rows and reverses the backward page. -/

/-- A stored telemetry row as the planner sees it. -/
structure TelemetryRow where
  cursorId : Nat
  time : Int
  ingestedAt : Int
  deviceUuid : String
deriving DecidableEq, Repr

/-- The parameters of the Postgres-level query. -/
structure TelemetryDbParams where
  deviceUuid : Option String
  startTime : Int
  endTime : Int
  limit : Nat
  afterCursor : Option Nat
  beforeCursor : Option Nat
  isBackward : Bool
deriving DecidableEq, Repr

/-- Insert into a list sorted by `le`. -/
def insertLE {a : Type} (le : a → a → Bool) (x : a) : List a → List a
  | [] => [x]
  | y :: ys => if le x y then x :: y :: ys else y :: insertLE le x ys

/-- Insertion sort by `le` (the ORDER BY of the query: the comparator is
total on rows with distinct `cursor_id`, so its result is the SQL one). -/
def sortLE {a : Type} (le : a → a → Bool) (l : List a) : List a :=
  l.foldr (insertLE le) []

/-- The ORDER BY comparator: `time asc, ingested_at asc, cursor_id asc`
backward, `time desc, ingested_at desc, cursor_id asc` forward. -/
def rowLE (isBackward : Bool) (x y : TelemetryRow) : Bool :=
  if isBackward then
    decide (x.time < y.time) ||
      (decide (x.time = y.time) &&
        (decide (x.ingestedAt < y.ingestedAt) ||
          (decide (x.ingestedAt = y.ingestedAt) && decide (x.cursorId ≤ y.cursorId))))
  else
    decide (y.time < x.time) ||
      (decide (x.time = y.time) &&
        (decide (y.ingestedAt < x.ingestedAt) ||
          (decide (x.ingestedAt = y.ingestedAt) && decide (x.cursorId ≤ y.cursorId))))

/-- The planner: range and device filters, anchored cursor filter over
`(time, cursor_id)`, ORDER BY, LIMIT, and the backward reversal. -/
def queryTelemetryDb (table : List TelemetryRow) (p : TelemetryDbParams) :
    List TelemetryRow :=
  let base := table.filter fun r =>
    decide (p.startTime ≤ r.time) && decide (r.time ≤ p.endTime) &&
      (match p.deviceUuid with
       | some dv => if dv = "" then true else r.deviceUuid == dv
       | none => true)
  let filtered :=
    if p.isBackward && p.beforeCursor.isSome then
      match p.beforeCursor with
      | some c =>
        match table.find? (fun r => r.cursorId == c) with
        | some a => base.filter fun r =>
            decide (r.time < a.time) ||
              (decide (r.time = a.time) && decide (r.cursorId < a.cursorId))
        | none => base
      | none => base
    else
      match p.afterCursor with
      | some c =>
        match table.find? (fun r => r.cursorId == c) with
        | some a => base.filter fun r =>
            decide (r.time < a.time) ||
              (decide (r.time = a.time) && decide (r.cursorId > a.cursorId))
        | none => base
      | none => base
  let limited := (sortLE (rowLE p.isBackward) filtered).take p.limit
  if p.isBackward then limited.reverse else limited

/-- C1: the forward page after a cursor filters by `(time, cursor_id)` but
orders by `time, ingested_at, cursor_id`, so two rows sharing a time can
be visited in an order that the cursor filter cannot resume: with rows
(cursor 5, ingested 10) and (cursor 1, ingested 9) at the same time, page
one of size one returns the cursor-5 row, and the next page after cursor 5
is empty, so the cursor-1 row is skipped although it matches the range. -/
theorem claim_C1 :
    queryTelemetryDb [⟨5, 0, 10, "d"⟩, ⟨1, 0, 9, "d"⟩]
        ⟨none, 0, 10, 1, none, none, false⟩ = [⟨5, 0, 10, "d"⟩]
  ∧ queryTelemetryDb [⟨5, 0, 10, "d"⟩, ⟨1, 0, 9, "d"⟩]
        ⟨none, 0, 10, 1, some 5, none, false⟩ = []
  ∧ (⟨1, 0, 9, "d"⟩ : TelemetryRow) ∉ ([⟨5, 0, 10, "d"⟩] : List TelemetryRow) :=
  ⟨rfl, rfl, by decide⟩

/-- C9 (amended): a cursor that matches no stored row does not yield an
empty continuation; the anchored filter is dropped entirely and the query
behaves exactly as if no cursor had been supplied, restarting from the
first page (and no error is raised, the planner being total). -/
theorem claim_C9 (table : List TelemetryRow) (d : Option String)
    (s e : Int) (lim : Nat) (c : Nat)
    (h : table.find? (fun r => r.cursorId == c) = none) :
    queryTelemetryDb table ⟨d, s, e, lim, some c, none, false⟩
      = queryTelemetryDb table ⟨d, s, e, lim, none, none, false⟩
    ∧ queryTelemetryDb table ⟨d, s, e, lim, none, some c, true⟩
      = queryTelemetryDb table ⟨d, s, e, lim, none, none, true⟩ := by
  constructor
  · simp only [queryTelemetryDb, h]
  · simp only [queryTelemetryDb, h, ite_self]

/-- C9 counterexample: a stale `after` cursor (99, matching no row) gives
back the full first page, not the empty continuation the claim states. -/
theorem claim_C9_counterexample :
    queryTelemetryDb [⟨5, 0, 10, "d"⟩] ⟨none, 0, 10, 10, some 99, none, false⟩
      = [⟨5, 0, 10, "d"⟩]
  ∧ ([⟨5, 0, 10, "d"⟩] : List TelemetryRow) ≠ [] :=
  ⟨rfl, by decide⟩

/-- C9 witness: the amended statement at a one-row table and the stale
cursor 99. -/
theorem claim_C9_witness :
    queryTelemetryDb [⟨5, 0, 10, "d"⟩] ⟨none, 0, 10, 3, some 99, none, false⟩
      = queryTelemetryDb [⟨5, 0, 10, "d"⟩] ⟨none, 0, 10, 3, none, none, false⟩
    ∧ queryTelemetryDb [⟨5, 0, 10, "d"⟩] ⟨none, 0, 10, 3, none, some 99, true⟩
      = queryTelemetryDb [⟨5, 0, 10, "d"⟩] ⟨none, 0, 10, 3, none, none, true⟩ :=
  claim_C9 [⟨5, 0, 10, "d"⟩] none 0 10 3 99 rfl

/-! ### Relay-style pagination assembly

Embedding of `createPaginatedResultWithId` in
src/business-logic/utils/pagination.ts (`createPaginatedResult` is the
special case whose id extractor reads the row's `id` field).  Each row
becomes an edge holding its API node and the base64 cursor of its id;
`hasNextPage` compares the edge count with the requested limit and
`hasPreviousPage` is the JavaScript truthiness of the `after` parameter. -/

/-- Pagination parameters of the result assembler. -/
structure PaginationParams where
  limit : Int
  after : Option String
deriving DecidableEq, Repr

/-- One edge of a paginated result. -/
structure Edge (a : Type) where
  cursor : String
  node : a
deriving DecidableEq, Repr

/-- The `pageInfo` object. -/
structure PageInfo where
  hasNextPage : Bool
  hasPreviousPage : Bool
  startCursor : Option String
  endCursor : Option String
deriving DecidableEq, Repr

/-- A Relay-style paginated result. -/
structure PaginationResult (a : Type) where
  edges : List (Edge a)
  pageInfo : PageInfo
deriving DecidableEq, Repr

/-- `createPaginatedResultWithId`: map rows to edges, then assemble
`pageInfo` from the edge count, the `after` parameter and the first and
last cursors. -/
def createPaginatedResultWithId {a b : Type} (rows : List a)
    (params : PaginationParams) (toApi : a → b) (getId : a → String) :
    PaginationResult b :=
  let edges := rows.map fun r => Edge.mk (encodeCursor (getId r)) (toApi r)
  ⟨edges,
    ⟨decide ((edges.length : Int) = params.limit), jsTruthyStr params.after,
      edges.head?.map Edge.cursor, edges.getLast?.map Edge.cursor⟩⟩

/-- `createPaginatedResult`: the id field read by the generic assembler is
modelled as the first component of the row pair. -/
def createPaginatedResult {a b : Type} (rows : List (String × a))
    (params : PaginationParams) (toApi : a → b) : PaginationResult b :=
  createPaginatedResultWithId rows params (fun r => toApi r.2) (fun r => r.1)

/-- C8 counterexample: an `after` parameter was supplied (the empty
string) yet `hasPreviousPage` is false, because the code tests JavaScript
truthiness of `after`, not its presence. -/
theorem claim_C8_counterexample :
    (createPaginatedResultWithId [("i1", "n")] ⟨5, some ""⟩
        (fun r => r.2) (fun r => r.1)).pageInfo.hasPreviousPage = false :=
  rfl

/-- C8 (amended): `hasNextPage` holds exactly when the page carries
exactly `limit` edges, and `hasPreviousPage` holds exactly when a NONEMPTY
`after` cursor was supplied (a supplied empty string counts as absent). -/
theorem claim_C8 :
    ∀ (a b : Type) (rows : List a) (params : PaginationParams)
      (toApi : a → b) (getId : a → String),
      ((createPaginatedResultWithId rows params toApi getId).pageInfo.hasNextPage
          = true
        ↔ ((createPaginatedResultWithId rows params toApi getId).edges.length : Int)
          = params.limit)
      ∧ ((createPaginatedResultWithId rows params toApi getId).pageInfo.hasPreviousPage
          = true
        ↔ ∃ str, params.after = some str ∧ str ≠ "") := by
  intro a b rows params toApi getId
  constructor
  · simp [createPaginatedResultWithId]
  · simp only [createPaginatedResultWithId, jsTruthyStr]
    match params.after with
    | none =>
        simp [jsTruthyStr]
    | some str =>
        simp [jsTruthyStr]

/-! ### Business-level telemetry query validation

Embedding of the validation pipeline of `queryTelemetry` in
src/business-logic/telemetry.ts: parse the optional time range (epoch and
the year 2100 as defaults), reject an inverted range, reject `first` with
`last` and `after` with `before`, derive the backward flag and the page
limit with its bounds, and decode the supplied cursors.  Timestamps
become epoch milliseconds through the proleptic Gregorian calendar. -/

/-- Days since 1970-01-01 of a civil date (valid for year at least 1). -/
def daysFromCivilNat (y m d : Nat) : Int :=
  let y2 := if m ≤ 2 then y - 1 else y
  let era := y2 / 400
  let yoe := y2 % 400
  let mp := (m + 9) % 12
  let doy := (153 * mp + 2) / 5 + d - 1
  let doe := yoe * 365 + yoe / 4 - yoe / 100 + doy
  (era : Int) * 146097 + (doe : Int) - 719468

/-- Epoch milliseconds of a parsed ISO date. -/
def isoDateMs (dt : IsoDate) : Int :=
  daysFromCivilNat dt.year dt.month dt.day * 86400000
    + (dt.hour : Int) * 3600000 + (dt.minute : Int) * 60000
    + (dt.second : Int) * 1000 + (dt.ms : Int)

/-- The request of the business-level telemetry query. -/
structure TelemetryQueryRequest where
  deviceUuid : Option String
  startTime : Option String
  endTime : Option String
  first : Option Int
  after : Option String
  last : Option Int
  before : Option String
deriving DecidableEq, Repr

/-- The failures of the validation pipeline. -/
inductive QueryError where
  | validation (field message : String)
  | cursor (e : CursorError)
deriving DecidableEq, Repr

/-- The Postgres-level parameters the pipeline builds. -/
structure TelemetryPlan where
  deviceUuid : Option String
  startTimeMs : Int
  endTimeMs : Int
  limit : Int
  afterCursor : Option String
  beforeCursor : Option String
  isBackward : Bool
deriving DecidableEq, Repr

/-- One optional time parameter: a truthy string must parse as an ISO
timestamp, anything else falls back to the default. -/
def parseTimeParam (field : String) (v : Option String) (dflt : Int) :
    Except QueryError Int :=
  if jsTruthyStr v then
    match v with
    | some str =>
      match jsDateParse str with
      | some d => .ok (isoDateMs d)
      | none => .error (.validation field
          ("Invalid " ++ field ++ " format. Expected ISO 8601 timestamp."))
    | none => .ok dflt
  else .ok dflt

/-- Decode a cursor parameter when it is truthy, else keep it undefined. -/
def decodeOptCursor (c : Option String) : Except QueryError (Option String) :=
  if jsTruthyStr c then
    match decodeCursor c with
    | .ok v => .ok (some v)
    | .error e => .error (.cursor e)
  else .ok none

/-- The validation pipeline of the business-level `queryTelemetry`,
producing the Postgres query parameters. -/
def queryTelemetryPlan (p : TelemetryQueryRequest) :
    Except QueryError TelemetryPlan :=
  match parseTimeParam "start_time" p.startTime 0 with
  | .error e => .error e
  | .ok startMs =>
    match parseTimeParam "end_time" p.endTime
        ((jsDateParse "2100-01-01T00:00:00.000Z").map isoDateMs |>.getD 0) with
    | .error e => .error e
    | .ok endMs =>
      if startMs ≥ endMs then
        .error (.validation "time_range" "start_time must be before end_time")
      else if jsTruthyNum p.first && jsTruthyNum p.last then
        .error (.validation "pagination"
          "Cannot use both first and last. Use first for forward pagination, last for backward.")
      else if jsTruthyStr p.after && jsTruthyStr p.before then
        .error (.validation "pagination"
          "Cannot use both after and before. Use after with first, before with last.")
      else
        let isBackward := jsTruthyNum p.last || jsTruthyStr p.before
        let limit := (p.first.or p.last).getD 100
        if limit < 1 ∨ limit > 1000 then
          .error (.validation "pagination" "first/last must be between 1 and 1000")
        else
          match decodeOptCursor p.after with
          | .error e => .error e
          | .ok afterCursor =>
            match decodeOptCursor p.before with
            | .error e => .error e
            | .ok beforeCursor =>
              .ok ⟨p.deviceUuid, startMs, endMs, limit, afterCursor,
                beforeCursor, isBackward⟩

/-- C10 counterexample: a request with only a `before` cursor (and neither
`first` nor `last`) is planned as BACKWARD pagination with the default
limit 100, refuting the claim that such requests are treated as forward. -/
theorem claim_C10_counterexample :
    queryTelemetryPlan ⟨none, none, none, none, none, none, some "YQ=="⟩
      = .ok ⟨none, 0, 4102444800000, 100, none, some "a", true⟩ :=
  rfl

/-- C10 (amended): with neither `first` nor `last` supplied, a successful
plan carries the page limit 100 (a default the spec nowhere states), and
its direction is backward exactly when a truthy `before` cursor was
supplied, forward otherwise. -/
theorem claim_C10 (req : TelemetryQueryRequest) (plan : TelemetryPlan)
    (h1 : req.first = none) (h2 : req.last = none)
    (h3 : queryTelemetryPlan req = .ok plan) :
    plan.limit = 100 ∧ plan.isBackward = jsTruthyStr req.before := by
  unfold queryTelemetryPlan at h3
  cases hs : parseTimeParam "start_time" req.startTime 0 with
  | error e => rw [hs] at h3; exact absurd h3 (by simp)
  | ok startMs =>
    rw [hs] at h3
    cases he : parseTimeParam "end_time" req.endTime
        ((jsDateParse "2100-01-01T00:00:00.000Z").map isoDateMs |>.getD 0) with
    | error e => rw [he] at h3; exact absurd h3 (by simp)
    | ok endMs =>
      rw [he] at h3
      simp only [h1, h2, jsTruthyNum, Option.or_none, Option.getD_none] at h3
      by_cases hr : startMs ≥ endMs
      · rw [if_pos hr] at h3; exact absurd h3 (by simp)
      · rw [if_neg hr] at h3
        simp only [Bool.and_false, Bool.false_and, Bool.false_or,
          Bool.if_false_left, Bool.if_false_right] at h3
        by_cases hb : jsTruthyStr req.after && jsTruthyStr req.before
        · rw [if_pos hb] at h3; exact absurd h3 (by simp)
        · rw [if_neg hb] at h3
          rw [if_neg (by omega : ¬((100 : Int) < 1 ∨ (100 : Int) > 1000))] at h3
          cases ha : decodeOptCursor req.after with
          | error e => rw [ha] at h3; exact absurd h3 (by simp)
          | ok afterCursor =>
            rw [ha] at h3
            cases hbc : decodeOptCursor req.before with
            | error e => rw [hbc] at h3; exact absurd h3 (by simp)
            | ok beforeCursor =>
              rw [hbc] at h3
              have := (Except.ok.injEq _ _ ▸ h3 : _)
              cases h3
              exact ⟨rfl, rfl⟩

/-- C10 witness: the empty request plans the default page of 100 rows in
the forward direction. -/
theorem claim_C10_witness :
    (⟨none, 0, 4102444800000, 100, none, none, false⟩ : TelemetryPlan).limit = 100
  ∧ (⟨none, 0, 4102444800000, 100, none, none, false⟩ : TelemetryPlan).isBackward
      = jsTruthyStr (⟨none, none, none, none, none, none, none⟩ :
          TelemetryQueryRequest).before :=
  claim_C10 ⟨none, none, none, none, none, none, none⟩
    ⟨none, 0, 4102444800000, 100, none, none, false⟩ rfl rfl rfl

/-! ### Station reconciliation (upsert for telemetry ingestion)

Embedding of the two `upsertStationForTelemetry` versions in
src/services/postgres/live/stations.ts.  The first issues a single
`INSERT .. ON CONFLICT (uuid) DO UPDATE` whose update clause clears
`deleted_at`, coalesces the incoming `model` and `fw_ver` over the stored
values and stamps `updated_at`; it is one atomic conditional write.  The
second reads the row first and then either updates (writing `model`,
`fw_ver` and `location` only when the incoming value is truthy) or
inserts, racing between the read and the write.  The database is a list
of rows; the unique index on `uuid` makes a clashing insert fail. -/

/-- A stored station row. -/
structure StationRow where
  uuid : String
  name : Option String
  model : Option String
  fwVer : Option String
  location : Option (ℚ × ℚ)
  description : Option String
  status : String
  autoCreated : Bool
  deletedAt : Option Int
  createdAt : Int
  updatedAt : Int
deriving DecidableEq, Repr

/-- The descriptor handed to the reconciler. -/
structure NewStation where
  uuid : String
  name : Option String
  model : Option String
  fwVer : Option String
  location : Option (ℚ × ℚ)
  description : Option String
  status : String
  autoCreated : Bool
deriving DecidableEq, Repr

/-- The descriptor built by telemetry ingestion for a device header. -/
def ingestionDescriptor (uuid : String) (model fwVer : Option String) :
    NewStation :=
  ⟨uuid, none, model, fwVer, none, none, "pending", true⟩

/-- The atomic version: `INSERT .. ON CONFLICT (uuid) DO UPDATE` as one
step, returning the new database and the returned row. -/
def upsertV1 (db : List StationRow) (s : NewStation) (now : Int) :
    List StationRow × StationRow :=
  match db.find? (fun r => r.uuid == s.uuid) with
  | some r =>
    let r2 : StationRow :=
      { r with deletedAt := none, model := s.model.or r.model,
               fwVer := s.fwVer.or r.fwVer, updatedAt := now }
    (db.map (fun x => if x.uuid == s.uuid then r2 else x), r2)
  | none =>
    (db ++ [⟨s.uuid, s.name, s.model, s.fwVer, s.location, s.description,
        s.status, s.autoCreated, none, now, now⟩],
      ⟨s.uuid, s.name, s.model, s.fwVer, s.location, s.description,
        s.status, s.autoCreated, none, now, now⟩)

/-- The failures a racing write can observe. -/
inductive DbError where
  | duplicateKey
  | noMatchingRow
deriving DecidableEq, Repr

/-- The read step of the check-then-write version. -/
def v2Read (db : List StationRow) (uuid : String) : Option StationRow :=
  db.find? (fun r => r.uuid == uuid)

/-- The update step: clear `deleted_at`, stamp `updated_at`, and write
`model`, `fw_ver` and `location` only when the incoming value is truthy;
no matching row makes `executeTakeFirstOrThrow` fail. -/
def v2Update (db : List StationRow) (s : NewStation) (now : Int) :
    Except DbError (List StationRow × StationRow) :=
  match db.find? (fun r => r.uuid == s.uuid) with
  | none => .error .noMatchingRow
  | some r =>
    let r2 : StationRow :=
      { r with deletedAt := none, updatedAt := now,
               model := if jsTruthyStr s.model then s.model else r.model,
               fwVer := if jsTruthyStr s.fwVer then s.fwVer else r.fwVer,
               location := if s.location.isSome then s.location else r.location }
    .ok (db.map (fun x => if x.uuid == s.uuid then r2 else x), r2)

/-- The insert step: the unique index on `uuid` rejects a duplicate. -/
def v2Insert (db : List StationRow) (s : NewStation) (now : Int) :
    Except DbError (List StationRow × StationRow) :=
  if db.any (fun r => r.uuid == s.uuid) then .error .duplicateKey
  else
    .ok (db ++ [⟨s.uuid, s.name, s.model, s.fwVer, s.location, s.description,
        s.status, s.autoCreated, none, now, now⟩],
      ⟨s.uuid, s.name, s.model, s.fwVer, s.location, s.description,
        s.status, s.autoCreated, none, now, now⟩)

/-- The check-then-write version run without interference: read, then
update or insert. -/
def upsertV2 (db : List StationRow) (s : NewStation) (now : Int) :
    Except DbError (List StationRow × StationRow) :=
  match v2Read db s.uuid with
  | some _ => v2Update db s now
  | none => v2Insert db s now

theorem truthyOr (v old : Option String) (hv : v ≠ some "") :
    (if jsTruthyStr v then v else old) = v.or old := by
  cases v with
  | none => simp [jsTruthyStr]
  | some m =>
      have hm : m ≠ "" := fun he => hv (by rw [he])
      simp [jsTruthyStr, hm, Option.or]

theorem countP_map_eq {a : Type} (p : a → Bool) (f : a → a)
    (hpf : ∀ x, p (f x) = p x) (l : List a) :
    (l.map f).countP p = l.countP p := by
  induction l with
  | nil => rfl
  | cons x xs ih => simp [List.countP_cons, hpf, ih]

/-- C2 counterexample: ingestion can hand the reconciler a non-null empty
string (`"fw_ver": ""` survives `?? null`).  There the two versions
diverge and the claim's coalesce semantics fails: the `ON CONFLICT`
version overwrites the stored firmware with the incoming non-null empty
string, while the check-then-write version's truthiness gate keeps the
stored value — so "overwritten only when the incoming values are
non-null" does not describe the repository's reconciler. -/
theorem claim_C2_counterexample :
    upsertV1 [⟨"u", some "Nm", none, some "f0", none, some "D", "active", false,
        some 99, 1, 2⟩] (ingestionDescriptor "u" none (some "")) 9
      = ([⟨"u", some "Nm", none, some "", none, some "D", "active", false,
            none, 1, 9⟩],
          ⟨"u", some "Nm", none, some "", none, some "D", "active", false,
            none, 1, 9⟩)
  ∧ upsertV2 [⟨"u", some "Nm", none, some "f0", none, some "D", "active", false,
        some 99, 1, 2⟩] (ingestionDescriptor "u" none (some "")) 9
      = .ok ([⟨"u", some "Nm", none, some "f0", none, some "D", "active", false,
            none, 1, 9⟩],
          ⟨"u", some "Nm", none, some "f0", none, some "D", "active", false,
            none, 1, 9⟩)
  ∧ (some "" : Option String) ≠ none
  ∧ (some "f0" : Option String) ≠ some "" :=
  ⟨rfl, rfl, by decide, by decide⟩

/-- C2 (amended): with no stored row for the uuid, both versions insert a
fresh row with status `pending`, `autoCreated` true and `deletedAt` null.
With a stored row (soft-deleted or not), the `ON CONFLICT` version
implements exactly the claim's coalesce semantics: `deletedAt` cleared,
any non-null incoming `model`/`fw_ver` overwrites, a null one never does,
`updated_at` stamped and `name`, `status`, `description`, `location`
untouched.  The check-then-write version gates those writes on JavaScript
truthiness instead, so it matches the coalesce semantics only when the
incoming values are absent or nonempty; an incoming non-null empty string
leaves the stored value in place there. -/
theorem claim_C2 :
    (∀ (db : List StationRow) (uuid : String) (model fwVer : Option String)
        (now : Int),
      db.find? (fun r => r.uuid == uuid) = none →
      upsertV1 db (ingestionDescriptor uuid model fwVer) now
        = (db ++ [⟨uuid, none, model, fwVer, none, none, "pending", true,
              none, now, now⟩],
            ⟨uuid, none, model, fwVer, none, none, "pending", true,
              none, now, now⟩)
      ∧ upsertV2 db (ingestionDescriptor uuid model fwVer) now
        = .ok (db ++ [⟨uuid, none, model, fwVer, none, none, "pending", true,
              none, now, now⟩],
            ⟨uuid, none, model, fwVer, none, none, "pending", true,
              none, now, now⟩))
  ∧ (∀ (db : List StationRow) (row : StationRow) (uuid : String)
        (model fwVer : Option String) (now : Int),
      db.find? (fun r => r.uuid == uuid) = some row →
      upsertV1 db (ingestionDescriptor uuid model fwVer) now
        = (db.map (fun x => if x.uuid == uuid then
              { row with
                  deletedAt := none, model := model.or row.model,
                  fwVer := fwVer.or row.fwVer, updatedAt := now } else x),
            { row with
                deletedAt := none, model := model.or row.model,
                fwVer := fwVer.or row.fwVer, updatedAt := now }))
  ∧ (∀ (db : List StationRow) (row : StationRow) (uuid : String)
        (model fwVer : Option String) (now : Int),
      db.find? (fun r => r.uuid == uuid) = some row →
      model ≠ some "" → fwVer ≠ some "" →
      upsertV2 db (ingestionDescriptor uuid model fwVer) now
        = .ok (db.map (fun x => if x.uuid == uuid then
              { row with
                  deletedAt := none, model := model.or row.model,
                  fwVer := fwVer.or row.fwVer, updatedAt := now } else x),
            { row with
                deletedAt := none, model := model.or row.model,
                fwVer := fwVer.or row.fwVer, updatedAt := now }))
  ∧ (∀ (db : List StationRow) (row : StationRow) (uuid : String) (now : Int),
      db.find? (fun r => r.uuid == uuid) = some row →
      upsertV2 db (ingestionDescriptor uuid (some "") (some "")) now
        = .ok (db.map (fun x => if x.uuid == uuid then
              { row with deletedAt := none, updatedAt := now } else x),
            { row with deletedAt := none, updatedAt := now })) := by
  refine ⟨?_, ?_, ?_, ?_⟩
  · intro db uuid model fwVer now h
    have hany : db.any (fun r => r.uuid == uuid) = false :=
      List.any_eq_false.mpr (List.find?_eq_none.mp h)
    constructor
    · simp only [upsertV1, ingestionDescriptor]
      rw [h]
    · simp only [upsertV2, v2Read, v2Insert, ingestionDescriptor]
      rw [h, hany]
      simp
  · intro db row uuid model fwVer now h
    simp only [upsertV1, ingestionDescriptor]
    rw [h]
  · intro db row uuid model fwVer now h hm hf
    have hm2 := truthyOr model row.model hm
    have hf2 := truthyOr fwVer row.fwVer hf
    simp only [upsertV2, v2Read, v2Update, ingestionDescriptor]
    rw [h]
    simp only [hm2, hf2, Option.isSome_none, Bool.false_eq_true, if_false]
  · intro db row uuid now h
    simp only [upsertV2, v2Read, v2Update, ingestionDescriptor]
    rw [h]
    simp [jsTruthyStr]

/-- C2 witness: a fresh uuid inserts the pending auto-created row; a
soft-deleted stored row is revived with its name, status, description and
firmware kept and the incoming model merged in; and an incoming empty
firmware string leaves the stored firmware in place in the
check-then-write version. -/
theorem claim_C2_witness :
    upsertV1 [] (ingestionDescriptor "u" (some "m") none) 7
      = ([⟨"u", none, some "m", none, none, none, "pending", true, none, 7, 7⟩],
          ⟨"u", none, some "m", none, none, none, "pending", true, none, 7, 7⟩)
  ∧ upsertV2 [] (ingestionDescriptor "u" (some "m") none) 7
      = .ok ([⟨"u", none, some "m", none, none, none, "pending", true, none, 7, 7⟩],
          ⟨"u", none, some "m", none, none, none, "pending", true, none, 7, 7⟩)
  ∧ upsertV1 [⟨"u", some "Nm", none, some "f0", none, some "D", "active", false,
        some 99, 1, 2⟩] (ingestionDescriptor "u" (some "m2") none) 9
      = ([⟨"u", some "Nm", some "m2", some "f0", none, some "D", "active", false,
            none, 1, 9⟩],
          ⟨"u", some "Nm", some "m2", some "f0", none, some "D", "active", false,
            none, 1, 9⟩)
  ∧ upsertV2 [⟨"u", some "Nm", none, some "f0", none, some "D", "active", false,
        some 99, 1, 2⟩] (ingestionDescriptor "u" (some "m2") none) 9
      = .ok ([⟨"u", some "Nm", some "m2", some "f0", none, some "D", "active", false,
            none, 1, 9⟩],
          ⟨"u", some "Nm", some "m2", some "f0", none, some "D", "active", false,
            none, 1, 9⟩)
  ∧ upsertV2 [⟨"u", some "Nm", none, some "f0", none, some "D", "active", false,
        some 99, 1, 2⟩] (ingestionDescriptor "u" (some "") (some "")) 9
      = .ok ([⟨"u", some "Nm", none, some "f0", none, some "D", "active", false,
            none, 1, 9⟩],
          ⟨"u", some "Nm", none, some "f0", none, some "D", "active", false,
            none, 1, 9⟩) :=
  ⟨(claim_C2.1 [] "u" (some "m") none 7 rfl).1,
   (claim_C2.1 [] "u" (some "m") none 7 rfl).2,
   claim_C2.2.1 [⟨"u", some "Nm", none, some "f0", none, some "D", "active", false,
        some 99, 1, 2⟩] ⟨"u", some "Nm", none, some "f0", none, some "D", "active",
        false, some 99, 1, 2⟩ "u" (some "m2") none 9 rfl,
   claim_C2.2.2.1 [⟨"u", some "Nm", none, some "f0", none, some "D", "active", false,
        some 99, 1, 2⟩] ⟨"u", some "Nm", none, some "f0", none, some "D", "active",
        false, some 99, 1, 2⟩ "u" (some "m2") none 9 rfl (by decide) (by decide),
   claim_C2.2.2.2 [⟨"u", some "Nm", none, some "f0", none, some "D", "active", false,
        some 99, 1, 2⟩] ⟨"u", some "Nm", none, some "f0", none, some "D", "active",
        false, some 99, 1, 2⟩ "u" 9 rfl⟩

/-- C3 counterexample: the check-then-write version races.  With an empty
table, both concurrent calls read no row for the uuid; the first insert
succeeds and the second then fails on the unique index, a duplicate-key
failure visible to the caller — so the repository's second
`upsertStationForTelemetry` is not the single atomic conditional write
the claim describes. -/
theorem claim_C3_counterexample :
    v2Read ([] : List StationRow) "u" = none
  ∧ v2Insert [] (ingestionDescriptor "u" none none) 1
      = .ok ([⟨"u", none, none, none, none, none, "pending", true, none, 1, 1⟩],
          ⟨"u", none, none, none, none, none, "pending", true, none, 1, 1⟩)
  ∧ v2Insert [⟨"u", none, none, none, none, none, "pending", true, none, 1, 1⟩]
      (ingestionDescriptor "u" none none) 2 = .error .duplicateKey :=
  ⟨rfl, rfl, rfl⟩

/-- C3 (amended): the `ON CONFLICT` version is one atomic step, so the
only interleavings of two concurrent calls for the same previously-unseen
uuid are the two sequential orders; after either order exactly one row
exists for the uuid, both calls return a row, and both returned rows are
non-soft-deleted — no duplicate-key failure can occur.  The claim's
description fits this version only; the repository's check-then-write
version races (see the counterexample). -/
theorem claim_C3 (db : List StationRow) (s1 s2 : NewStation) (now1 now2 : Int)
    (hu : s2.uuid = s1.uuid)
    (h0 : db.countP (fun r => r.uuid == s1.uuid) = 0) :
    (upsertV1 (upsertV1 db s1 now1).1 s2 now2).1.countP
        (fun r => r.uuid == s1.uuid) = 1
    ∧ (upsertV1 (upsertV1 db s1 now1).1 s2 now2).2.deletedAt = none
    ∧ (upsertV1 db s1 now1).2.deletedAt = none := by
  have hnone : db.find? (fun r => r.uuid == s1.uuid) = none :=
    List.find?_eq_none.mpr (List.countP_eq_zero.mp h0)
  have h1 : upsertV1 db s1 now1
      = (db ++ [⟨s1.uuid, s1.name, s1.model, s1.fwVer, s1.location,
          s1.description, s1.status, s1.autoCreated, none, now1, now1⟩],
        ⟨s1.uuid, s1.name, s1.model, s1.fwVer, s1.location,
          s1.description, s1.status, s1.autoCreated, none, now1, now1⟩) := by
    unfold upsertV1
    rw [hnone]
  have hfind2 : List.find? (fun r => r.uuid == s2.uuid)
      (db ++ [(⟨s1.uuid, s1.name, s1.model, s1.fwVer, s1.location,
        s1.description, s1.status, s1.autoCreated, none, now1, now1⟩ : StationRow)])
      = some ⟨s1.uuid, s1.name, s1.model, s1.fwVer, s1.location,
          s1.description, s1.status, s1.autoCreated, none, now1, now1⟩ := by
    rw [List.find?_append]
    have hL : db.find? (fun r => r.uuid == s2.uuid) = none := by
      rw [hu]; exact hnone
    rw [hL]
    simp [hu]
  refine ⟨?_, ?_, ?_⟩
  · rw [h1]
    unfold upsertV1
    rw [hfind2]
    rw [countP_map_eq _ _ ?_]
    · rw [List.countP_append, h0]
      simp [hu]
    · intro x
      by_cases hx : x.uuid == s2.uuid
      · have hxeq : x.uuid = s1.uuid := by
          rw [← hu]; exact beq_iff_eq.mp hx
        simp [hx, hxeq, hu]
      · simp [hx]
  · rw [h1]
    unfold upsertV1
    rw [hfind2]
  · rw [h1]

/-- C3 witness: two sequential atomic reconciliations for the same fresh
uuid on the empty table leave exactly one row, both non-soft-deleted. -/
theorem claim_C3_witness :
    (upsertV1 (upsertV1 [] (ingestionDescriptor "u" none none) 1).1
        (ingestionDescriptor "u" none none) 2).1.countP
        (fun r => r.uuid == (ingestionDescriptor "u" none none).uuid) = 1
    ∧ (upsertV1 (upsertV1 [] (ingestionDescriptor "u" none none) 1).1
        (ingestionDescriptor "u" none none) 2).2.deletedAt = none
    ∧ (upsertV1 [] (ingestionDescriptor "u" none none) 1).2.deletedAt = none :=
  claim_C3 [] (ingestionDescriptor "u" none none)
    (ingestionDescriptor "u" none none) 1 2 rfl rfl

end Siveca

